import Mathlib

/-
Verification of the elevator-system backend simulation engine.

The engine is shallowly embedded: JS numbers become `ℚ` (times, priorities,
scores) or `ℤ` (floors); JS `null`/`undefined` fields become `Option`;
mutation becomes explicit state passing.  All definitions below are
transcriptions of the JavaScript source (simulation service, scheduler
service, constants module, sim clock, elevator model, request controller);
deviations from the source would be bugs in this development.
-/

namespace ElevatorSim

/-- Direction strings used by the source: "up", "down", "idle".
All three are truthy as JS strings. -/
inductive Dir where
  | up
  | down
  | idle
deriving DecidableEq, Repr

/-- Door state strings used by the source: "open", "closed". -/
inductive DoorState where
  | opened
  | closed
deriving DecidableEq, Repr

/-- Request type strings: "external", "internal". -/
inductive ReqType where
  | external
  | internal
deriving DecidableEq, Repr

/-- JS truthiness of a nullable numeric field (e.g. `r.pickupTime`):
`undefined`/`null` and `0` are falsy, every other number truthy. -/
def truthyNum : Option ℚ → Bool
  | none => false
  | some x => x != 0

/-- Truncation toward zero, as JS `%` uses for its quotient. -/
def ratTrunc (q : ℚ) : ℤ :=
  if q < 0 then -(Int.floor (-q)) else Int.floor q

/-- JS remainder operator `%` on (possibly fractional) numbers:
`x % d = x - d * trunc(x / d)`. -/
def jsMod (x d : ℚ) : ℚ := x - d * (ratTrunc (x / d) : ℚ)

/-- Elevator record, from `createElevator` in the elevator model plus the
fields the engine adds (`buildingFloors`, `utilTime`). -/
structure Elevator where
  id : ℕ
  currentFloor : ℤ
  targetFloors : List ℤ
  direction : Dir
  doorState : DoorState
  passengerCount : ℕ
  capacity : ℕ
  statusSince : ℚ
  accTime : ℚ
  utilTime : ℚ
  buildingFloors : ℤ
deriving DecidableEq, Repr

/-- `createElevator(id, initialFloor = 1, capacity = 6)` from the elevator
model module. -/
def createElevator (id : ℕ) (initialFloor : ℤ := 1) (capacity : ℕ := 6) : Elevator :=
  { id := id
    currentFloor := initialFloor
    targetFloors := []
    direction := Dir.idle
    doorState := DoorState.closed
    passengerCount := 0
    capacity := capacity
    statusSince := 0
    accTime := 0
    utilTime := 0
    buildingFloors := 0 }

/-- Request record created by `sim.addManualRequest`.  `direction` models the
`request.direction` field read (but never written) by `computeScore`. -/
structure Request where
  id : ℕ
  timestamp : ℚ
  rtype : ReqType
  origin : Option ℤ
  destination : Option ℤ
  basePriority : ℚ
  priority : ℚ
  escalated : Bool
  isMorningRush : Bool
  assignedTo : Option ℕ
  pickupTime : Option ℚ
  dropoffTime : Option ℚ
  direction : Option Dir
deriving DecidableEq, Repr

/-- Engine configuration (`defaultConfig` shape in the simulation service). -/
structure Config where
  nElevators : ℕ
  nFloors : ℤ
  timePerFloor : ℚ
  doorDwell : ℚ
  lobbyFloor : ℤ
deriving DecidableEq, Repr

/-- `defaultConfig` from the simulation service. -/
def defaultConfig : Config :=
  { nElevators := 3, nFloors := 12, timePerFloor := 1000, doorDwell := 2000, lobbyFloor := 1 }

/-- Virtual clock state, from `createSimClock` in `sim-clock.js`. -/
structure Clock where
  simTime : ℚ
  speed : ℚ
deriving DecidableEq, Repr

/-- `createSimClock()`: simTime 0, speed 1. -/
def createSimClock : Clock := { simTime := 0, speed := 1 }

/-- `clock.advance(dt)`: `simTime += dt * speed`. -/
def Clock.advance (c : Clock) (dt : ℚ) : Clock :=
  { c with simTime := c.simTime + dt * c.speed }

/-- `clock.setSpeed(s)`: replaces the multiplier. -/
def Clock.withSpeed (c : Clock) (s : ℚ) : Clock := { c with speed := s }

/-- The coercion applied by every speed command handler in the source:
`Number(data.speed) || 1` (a falsy parse, e.g. `0`, becomes `1`). -/
def speedCoerce (x : ℚ) : ℚ := if x = 0 then 1 else x

/-- Whole mutable simulation state held by the `sim` object. -/
structure SimState where
  clock : Clock
  config : Config
  elevators : List Elevator
  pendingRequests : List Request
  servedRequests : List Request
  running : Bool
  utilSamples : List (ℚ × ℚ × ℕ)
deriving DecidableEq, Repr

/-! ### constants.js: scoring and priority refresh -/

/-- `occupancyPenalty(elevator)` from `constants.js`.
`Math.floor(capacity * 0.8)` on a natural capacity is `4 * capacity / 5`
with natural division. -/
def occupancyPenalty (e : Elevator) : ℚ :=
  if e.capacity ≤ e.passengerCount then 10000
  else if 4 * e.capacity / 5 ≤ e.passengerCount then 200
  else 0

/-- Walk of the scheduled stops inside `estimateETA`: accumulate travel time,
stop when the pickup floor is one of the scheduled stops, otherwise add the
door dwell and continue; finally ride from the last stop to the pickup. -/
def etaWalk (pickup : ℤ) (tpf dd : ℚ) : List ℤ → ℤ → ℚ → ℚ
  | [], cur, total => total + ((pickup - cur).natAbs : ℚ) * tpf
  | t :: ts, cur, total =>
    let total := total + ((t - cur).natAbs : ℚ) * tpf
    if t = pickup then total else etaWalk pickup tpf dd ts t (total + dd)

/-- `estimateETA(elevator, pickupFloor, timePerFloor, doorDwell)` from
`constants.js`.  `elevator.currentFloor || 1` maps floor `0` to `1`. -/
def estimateETA (e : Elevator) (pickup : ℤ) (tpf dd : ℚ) : ℚ :=
  let cur := if e.currentFloor = 0 then 1 else e.currentFloor
  if e.targetFloors = [] then ((cur - pickup).natAbs : ℚ) * tpf
  else etaWalk pickup tpf dd e.targetFloors cur 0

/-- `pickup = request.origin != null ? request.origin : request.destination`,
shared by `computeScore` and the busy-elevator batching. -/
def pickupOf (r : Request) : Option ℤ :=
  if r.origin.isSome then r.origin else r.destination

/-- Request direction as computed inside `computeScore`: derived from
origin/destination when both present, else the (never written)
`request.direction` field. -/
def reqDirection (r : Request) : Option Dir :=
  match r.origin, r.destination with
  | some o, some d => some (if o < d then Dir.up else Dir.down)
  | _, _ => r.direction

/-- `computeScore(elevator, request, timePerFloor, doorDwell)` from
`constants.js`, given the pickup floor (all requests built by this engine
carry an origin, so the pickup is never absent).  Returns `(score, eta)`. -/
def computeScoreAt (e : Elevator) (r : Request) (pickup : ℤ) (tpf dd : ℚ) : ℚ × ℚ :=
  let eta := estimateETA e pickup tpf dd
  let base := if r.priority = 0 then 1 else r.priority
  let idleOrStopping := e.direction = Dir.idle ∨ e.targetFloors.head? = some pickup
  let s1 :=
    if e.currentFloor = pickup ∧ idleOrStopping then base + 10000
    else if (e.currentFloor - pickup).natAbs = 1 then base + 75
    else base
  let s2 :=
    match reqDirection r with
    | some d => if e.direction = d then s1 + 20 else s1
    | none => s1
  let s3 := s2 - eta * (15 / 10000)
  let s4 := s3 - (e.targetFloors.length : ℚ) * 12
  let s5 := s4 - occupancyPenalty e
  let s6 := s5 - e.utilTime * (8 / 100000)
  let s7 := if r.escalated then s6 + 5000 else s6
  (s7, eta)

/-- `computeScore` with the source's pickup selection; pickup `0` is used as
the (unreachable) fallback when both floors are null. -/
def computeScore (e : Elevator) (r : Request) (tpf dd : ℚ) : ℚ × ℚ :=
  computeScoreAt e r ((pickupOf r).getD 0) tpf dd

/-- First half of the per-request body of `updatePriorities`: the base
recomputation and the one-shot escalation step. -/
def escalStep (now : ℚ) (r : Request) : Request :=
  if r.escalated = false ∧ 30000 ≤ now - r.timestamp then
    { r with escalated := true,
             priority := (if r.basePriority = 0 then 1 else r.basePriority)
               + (now - r.timestamp) * (1 / 1000) + 2000 }
  else
    { r with priority := (if r.basePriority = 0 then 1 else r.basePriority)
               + (now - r.timestamp) * (1 / 1000) }

/-- Lobby morning-rush condition of `updatePriorities`:
`sim.config.lobbyFloor && r.origin === sim.config.lobbyFloor &&
(sim._isMorningRushWindow() || r.isMorningRush)`. -/
def lobbyCond (cfg : Config) (rush : Bool) (r : Request) : Prop :=
  cfg.lobbyFloor ≠ 0 ∧ r.origin = some cfg.lobbyFloor ∧ (rush = true ∨ r.isMorningRush = true)

instance (cfg : Config) (rush : Bool) (r : Request) : Decidable (lobbyCond cfg rush r) := by
  unfold lobbyCond; infer_instance

/-- Second half of the per-request body of `updatePriorities`:
`r.priority += r.priority * 0.5` for lobby requests in the rush window. -/
def lobbyStep (cfg : Config) (rush : Bool) (r : Request) : Request :=
  if lobbyCond cfg rush r then { r with priority := r.priority + r.priority * (1 / 2) }
  else r

/-- Full per-request body of the `updatePriorities` loop in `constants.js`. -/
def refreshRequest (now : ℚ) (cfg : Config) (rush : Bool) (r : Request) : Request :=
  lobbyStep cfg rush (escalStep now r)

/-- `sim._isMorningRushWindow()`: sim-time-of-day within [09:00, 09:30]. -/
def isMorningRushWindow (now : ℚ) : Bool :=
  let dayMs : ℚ := 24 * 60 * 60 * 1000
  let simDayTime := jsMod now dayMs
  decide (9 * 3600000 ≤ simDayTime ∧ simDayTime ≤ 9 * 3600000 + 1800000)

/-- `updatePriorities(now, sim)` from `constants.js`: refresh every pending
request in place. -/
def updatePriorities (now : ℚ) (s : SimState) : SimState :=
  { s with pendingRequests :=
      s.pendingRequests.map (refreshRequest now s.config (isMorningRushWindow now)) }

/-! ### scheduler-service.js -/

/-- `Math.max(...list)` / `Math.min(...list)`; `none` models the
`-Infinity` / `Infinity` result on an empty spread, under which every
comparison in the batching condition is false. -/
def listMax : List ℤ → Option ℤ
  | [] => none
  | x :: xs => some (xs.foldl max x)

/-- See `listMax`. -/
def listMin : List ℤ → Option ℤ
  | [] => none
  | x :: xs => some (xs.foldl min x)

/-- `Array.from(new Set(list))`: removes duplicates keeping the first
occurrence of each element, preserving order. -/
def setDedupAux : List ℤ → List ℤ → List ℤ
  | [], acc => acc.reverse
  | x :: xs, acc => if x ∈ acc then setDedupAux xs acc else setDedupAux xs (x :: acc)

/-- See `setDedupAux`. -/
def setDedup (l : List ℤ) : List ℤ := setDedupAux l []

/-- One candidate (idle elevator, unassigned request) pair of the greedy
global matching, with the data the comparator reads: the request's
escalation flag, the computed score and eta, and the elevator's cumulative
`utilTime`. -/
structure Pair where
  elevId : ℕ
  reqId : ℕ
  escalated : Bool
  score : ℚ
  eta : ℚ
  util : ℚ
deriving DecidableEq, Repr

/-- The comparator passed to `pairs.sort` in `scheduler-service.js`
(negative result means the first argument sorts earlier):
escalated first, then score descending, then eta ascending, then
elevator `utilTime` ascending. -/
def pairCmp (a b : Pair) : ℚ :=
  if (if a.escalated then (1:ℚ) else 0) ≠ (if b.escalated then (1:ℚ) else 0) then
    (if b.escalated then (1:ℚ) else 0) - (if a.escalated then (1:ℚ) else 0)
  else if b.score ≠ a.score then b.score - a.score
  else if a.eta ≠ b.eta then a.eta - b.eta
  else a.util - b.util

/-- `a` may be placed no later than `b` by the sort. -/
def pairLE (a b : Pair) : Bool := decide (pairCmp a b ≤ 0)

/-- Stable insertion into a sorted pair list (models the stable
`Array.prototype.sort`). -/
def insortPair (p : Pair) : List Pair → List Pair
  | [] => [p]
  | q :: qs => if pairLE p q then p :: q :: qs else q :: insortPair p qs

/-- Stable sort of the candidate pair list by `pairCmp`. -/
def sortPairs (l : List Pair) : List Pair := l.foldr insortPair []

/-- Build the `Pair` record for one (elevator, request) candidate, as the
pair-construction loop does via `computeScore`. -/
def mkPair (cfg : Config) (e : Elevator) (r : Request) : Pair :=
  let se := computeScore e r cfg.timePerFloor 2000
  { elevId := e.id, reqId := r.id, escalated := r.escalated,
    score := se.1, eta := se.2, util := e.utilTime }

/-- The origin/destination floors pushed onto the route on assignment
(`if (p.request.origin != null) ... push(origin)`, then destination). -/
def routePush (r : Request) : List ℤ :=
  (match r.origin with | some o => [o] | none => [])
    ++ (match r.destination with | some d => [d] | none => [])

/-- State threaded through the greedy assignment loop: current elevators,
current pending requests, used elevator ids, used request ids. -/
structure GreedySt where
  elevators : List Elevator
  pending : List Request
  usedE : List ℕ
  usedR : List ℕ

/-- One iteration of the greedy loop over the sorted pair list in
`scheduler-service.js` (skip used pairs, skip full elevators, skip when the
projected load reaches capacity; else assign and dedup the route). -/
def greedyStep (st : GreedySt) (p : Pair) : GreedySt :=
  if p.elevId ∈ st.usedE ∨ p.reqId ∈ st.usedR then st
  else
    match st.elevators.find? (fun e => e.id = p.elevId),
          st.pending.find? (fun r => r.id = p.reqId) with
    | some e, some r =>
      if e.capacity ≤ e.passengerCount then st
      else
        let alreadyAssigned :=
          (st.pending.filter
            (fun x => x.assignedTo = some p.elevId ∧ truthyNum x.pickupTime = false)).length
        if e.capacity ≤ e.passengerCount + alreadyAssigned then st
        else
          let r2 := { r with assignedTo := some e.id }
          let e2 := { e with targetFloors := setDedup (e.targetFloors ++ routePush r) }
          { elevators := st.elevators.map (fun x => if x.id = e.id then e2 else x)
            pending := st.pending.map (fun x => if x.id = r.id then r2 else x)
            usedE := p.elevId :: st.usedE
            usedR := p.reqId :: st.usedR }
    | _, _ => st

/-- The intra-trip batching test and assignment for one busy elevator and one
pending request, from the busy-elevator loop of `scheduler-service.js`.
Note the direction string `"idle"` is truthy and falls into the `"down"`
branch of the ternary, exactly as in the source. -/
def batchOne (e : Elevator) (r : Request) : Elevator × Request :=
  if r.assignedTo.isSome then (e, r)
  else if e.capacity ≤ e.passengerCount then (e, r)
  else
    match pickupOf r with
    | none => (e, r)
    | some p =>
      let between :=
        if e.direction = Dir.up then
          match listMax e.targetFloors with
          | some m => decide (e.currentFloor < p ∧ p ≤ m)
          | none => false
        else
          match listMin e.targetFloors with
          | some m => decide (p < e.currentFloor ∧ m ≤ p)
          | none => false
      if between then
        ({ e with targetFloors := e.targetFloors ++ [p] },
         { r with assignedTo := some e.id })
      else (e, r)

/-- Batching pass of one busy elevator over the whole pending list, followed
by the route dedup `e.targetFloors = Array.from(new Set(e.targetFloors))`. -/
def batchElevator (e : Elevator) (pend : List Request) : Elevator × List Request :=
  let step := pend.foldl
    (fun (st : Elevator × List Request) r =>
      let er := batchOne st.1 r
      (er.1, st.2 ++ [er.2]))
    (e, [])
  ({ step.1 with targetFloors := setDedup step.1.targetFloors }, step.2)

/-- The greedy global matching phase of `scheduler.assign()`: when there are
idle elevators and unassigned requests, build every candidate pair with its
score and eta, sort by the escalation/score/eta/utilTime comparator, and
walk the sorted list assigning greedily under the projected-load cap. -/
def greedyPhase (cfg : Config) (es : List Elevator) (pend : List Request) :
    List Elevator × List Request :=
  if es.filter (fun e => e.targetFloors.isEmpty) ≠ [] ∧
      pend.filter (fun r => r.assignedTo.isNone) ≠ [] then
    (((sortPairs
        ((es.filter (fun e => e.targetFloors.isEmpty)).flatMap (fun e =>
          (pend.filter (fun r => r.assignedTo.isNone)).filterMap (fun r =>
            if r.assignedTo.isSome then none else some (mkPair cfg e r))))).foldl
      greedyStep
      { elevators := es, pending := pend, usedE := [], usedR := [] }).elevators,
     ((sortPairs
        ((es.filter (fun e => e.targetFloors.isEmpty)).flatMap (fun e =>
          (pend.filter (fun r => r.assignedTo.isNone)).filterMap (fun r =>
            if r.assignedTo.isSome then none else some (mkPair cfg e r))))).foldl
      greedyStep
      { elevators := es, pending := pend, usedE := [], usedR := [] }).pending)
  else (es, pend)

/-- One busy elevator of the intra-trip batching phase: look the elevator up
by id in the current fleet, batch it against the current pending list,
write it back. -/
def batchStep (st : List Elevator × List Request) (bid : ℕ) :
    List Elevator × List Request :=
  match st.1.find? (fun e => e.id = bid) with
  | none => st
  | some e =>
    ((st.1.map (fun x => if x.id = bid then (batchElevator e st.2).1 else x)),
     (batchElevator e st.2).2)

/-- The intra-trip batching phase over the busy elevator ids. -/
def batchPhase (bids : List ℕ) (st : List Elevator × List Request) :
    List Elevator × List Request :=
  bids.foldl batchStep st

/-- The whole `scheduler.assign()` pass: priority refresh, greedy global
matching over idle elevators, then intra-trip batching over busy ones. -/
def assign (s : SimState) : SimState :=
  { updatePriorities s.clock.simTime s with
    elevators :=
      (batchPhase
        (((updatePriorities s.clock.simTime s).elevators.filter
            (fun e => !e.targetFloors.isEmpty)).map (fun e => e.id))
        (greedyPhase s.config (updatePriorities s.clock.simTime s).elevators
          (updatePriorities s.clock.simTime s).pendingRequests)).1,
    pendingRequests :=
      (batchPhase
        (((updatePriorities s.clock.simTime s).elevators.filter
            (fun e => !e.targetFloors.isEmpty)).map (fun e => e.id))
        (greedyPhase s.config (updatePriorities s.clock.simTime s).elevators
          (updatePriorities s.clock.simTime s).pendingRequests)).2 }

/-! ### app.js: elevator movement and the tick driver -/

/-- Append the request destination to a route unless already scheduled
(`if (r.destination != null && !e.targetFloors.includes(r.destination))`). -/
def pushDest (tf : List ℤ) : Option ℤ → List ℤ
  | none => tf
  | some d => if d ∈ tf then tf else tf ++ [d]

/-- State threaded through an arrival sweep: the arriving elevator, the
pending list, the served archive. -/
abbrev SweepSt := Elevator × List Request × List Request

/-- PICKUP branch of the arrival sweep: the request is assigned to this
elevator, waits at this floor and is not yet aboard; board when there is
space (stamping `pickupTime`, scheduling the dropoff), else unassign. -/
def pickPhase (now : ℚ) (e : Elevator) (r : Request) : Elevator × Request :=
  if r.assignedTo = some e.id ∧ r.origin = some e.currentFloor ∧
      truthyNum r.pickupTime = false then
    if e.passengerCount < e.capacity then
      ({ e with passengerCount := e.passengerCount + 1,
                targetFloors := pushDest e.targetFloors r.destination },
       { r with pickupTime := some now })
    else (e, { r with assignedTo := none })
  else (e, r)

/-- DROPOFF branch of the arrival sweep: stamp `dropoffTime`, decrement the
passenger count (floored at 0 by the natural subtraction), archive the
request and drop it from the pending set. -/
def dropPhase (now : ℚ) (e : Elevator) (r : Request)
    (pend served : List Request) (rid : ℕ) : SweepSt :=
  if r.assignedTo = some e.id ∧ r.destination = some e.currentFloor ∧
      truthyNum r.pickupTime = true ∧ truthyNum r.dropoffTime = false then
    ({ e with passengerCount := e.passengerCount - 1 },
     (pend.map (fun x => if x.id = rid then { r with dropoffTime := some now } else x)).filter
       (fun x => x.id ≠ rid),
     served ++ [{ r with dropoffTime := some now }])
  else (e, pend, served)

/-- Processing of one request id during the arrival sweep of
`_processElevatorMovement` (pickup attempt, then dropoff attempt, on the
same request object). -/
def sweepOne (now : ℚ) (st : SweepSt) (rid : ℕ) : SweepSt :=
  match st.2.1.find? (fun r => r.id = rid) with
  | none => st
  | some r =>
    dropPhase now (pickPhase now st.1 r).1 (pickPhase now st.1 r).2
      (st.2.1.map (fun x => if x.id = rid then (pickPhase now st.1 r).2 else x))
      st.2.2 rid

/-- The floor-stepping loop of the travel branch: move one floor at a time
toward the target, recording the direction, breaking on arrival. -/
def moveLoop : ℕ → ℤ → ℤ → Dir → ℤ × Dir
  | 0, cur, _, d => (cur, d)
  | n + 1, cur, t, d =>
    if cur < t then
      if cur + 1 = t then (t, Dir.up) else moveLoop n (cur + 1) t Dir.up
    else if t < cur then
      if cur - 1 = t then (t, Dir.down) else moveLoop n (cur - 1) t Dir.down
    else (cur, d)

/-- Door-close step: if the door is open (and, at the call site, the dwell
has elapsed), close it and stamp `statusSince`. -/
def closeDoor (now : ℚ) (e : Elevator) : Elevator :=
  if e.doorState = DoorState.opened then
    { e with doorState := DoorState.closed, statusSince := now }
  else e

/-- Idle transition: with an empty route, record the idle start (or
defensively stamp a falsy `statusSince`). -/
def idleStep (now : ℚ) (e : Elevator) : Elevator :=
  if e.direction ≠ Dir.idle then { e with direction := Dir.idle, statusSince := now }
  else { e with statusSince := if e.statusSince = 0 then now else e.statusSince }

/-- The arrival sweep over a snapshot of the pending ids, starting from the
elevator with its door opened and `statusSince` stamped. -/
def sweepAll (now : ℚ) (e : Elevator) (pend served : List Request) : SweepSt :=
  (pend.map (fun r => r.id)).foldl (sweepOne now)
    ({ e with doorState := DoorState.opened, statusSince := now }, pend, served)

/-- Arrival at the head-of-route floor: open the door, sweep the pending set
(over a snapshot of its ids) for pickups and dropoffs, pop the head. -/
def arrivalStep (now : ℚ) (e : Elevator) (pend served : List Request) : SweepSt :=
  ({ (sweepAll now e pend served).1 with
      targetFloors := (sweepAll now e pend served).1.targetFloors.tail },
   (sweepAll now e pend served).2.1,
   (sweepAll now e pend served).2.2)

/-- Travel step: accumulate sim time into the movement accumulator, move
whole floors toward the target (breaking on arrival), keep the remainder. -/
def travelStep (cfg : Config) (now dt : ℚ) (e : Elevator) (target : ℤ) : Elevator :=
  if Int.floor ((e.accTime + dt) / cfg.timePerFloor) ≤ 0 then
    { e with accTime := e.accTime + dt,
             direction := if e.currentFloor < target then Dir.up else Dir.down }
  else
    { e with
      currentFloor :=
        (moveLoop (Int.floor ((e.accTime + dt) / cfg.timePerFloor)).toNat
          e.currentFloor target e.direction).1,
      direction :=
        (moveLoop (Int.floor ((e.accTime + dt) / cfg.timePerFloor)).toNat
          e.currentFloor target e.direction).2,
      accTime := jsMod (e.accTime + dt) cfg.timePerFloor,
      statusSince := now }

/-- `sim._processElevatorMovement(e, dt)` from the simulation service, acting
on one elevator plus the request book, at sim-time `now`. -/
def processMove (cfg : Config) (now dt : ℚ) (e : Elevator)
    (pend served : List Request) : SweepSt :=
  -- door dwell gate
  if e.doorState = DoorState.opened ∧ now - e.statusSince < cfg.doorDwell then
    (e, pend, served)
  else
    match (closeDoor now e).targetFloors with
    | [] => (idleStep now (closeDoor now e), pend, served)
    | target :: _ =>
      if (closeDoor now e).currentFloor = target then
        arrivalStep now (closeDoor now e) pend served
      else
        (travelStep cfg now dt (closeDoor now e) target, pend, served)

/-- Sequential movement step of every elevator inside `sim._tick`, threading
the request book. -/
def moveAll (cfg : Config) (now dt : ℚ) (es : List Elevator)
    (pend served : List Request) : List Elevator × List Request × List Request :=
  es.foldl
    (fun (st : List Elevator × List Request × List Request) e =>
      let r := processMove cfg now dt e st.2.1 st.2.2
      (st.1 ++ [r.1], r.2.1, r.2.2))
    ([], pend, served)

/-- The 60s-window sample pruning at the end of `sim._tick`. -/
def pruneSamples (now : ℚ) : List (ℚ × ℚ × ℕ) → List (ℚ × ℚ × ℕ)
  | [] => []
  | x :: xs => if x.1 < now - 120000 then pruneSamples now xs else x :: xs

/-- Per-elevator utilization update of `sim._tick`: add `simDt` to
`utilTime` when carrying at least one passenger. -/
def utilPhase (simDt : ℚ) (es : List Elevator) : List Elevator :=
  es.map (fun e =>
    { e with utilTime := e.utilTime + (if 0 < e.passengerCount then simDt else 0) })

/-- Metrics sampling at the end of `sim._tick`: push a
`{ts, totalUtilTime, servedCount}` sample and prune old ones. -/
def samplePhase (now : ℚ) (s : SimState) : SimState :=
  { s with utilSamples :=
      pruneSamples now (s.utilSamples ++
        [(now, s.elevators.foldl (fun a e => a + e.utilTime) 0,
          s.servedRequests.length)]) }

/-- The engine state after the clock advance and the motion step of every
elevator, inside `sim._tick`. -/
def afterMove (realDt : ℚ) (s : SimState) : SimState :=
  { s with
    clock := s.clock.advance realDt,
    elevators :=
      (moveAll s.config (s.clock.advance realDt).simTime
        (realDt * (s.clock.advance realDt).speed)
        s.elevators s.pendingRequests s.servedRequests).1,
    pendingRequests :=
      (moveAll s.config (s.clock.advance realDt).simTime
        (realDt * (s.clock.advance realDt).speed)
        s.elevators s.pendingRequests s.servedRequests).2.1,
    servedRequests :=
      (moveAll s.config (s.clock.advance realDt).simTime
        (realDt * (s.clock.advance realDt).speed)
        s.elevators s.pendingRequests s.servedRequests).2.2 }

/-- `sim._tick(realDt)`: advance the clock, move every elevator, run the
scheduler, update per-elevator utilization, push and prune a metrics
sample.  (The final broadcast does not change engine state.) -/
def tick (realDt : ℚ) (s : SimState) : SimState :=
  samplePhase (s.clock.advance realDt).simTime
    { assign (afterMove realDt s) with
      elevators := utilPhase (realDt * (s.clock.advance realDt).speed)
        (assign (afterMove realDt s)).elevators }

/-! ### app.js: request submission, init, reset -/

/-- The argument object of `sim.addManualRequest` after its destructuring
defaults (`type = "external"`, `origin = 1`, `destination = 2`,
`elevatorId = null`, `isMorningRush = false`). -/
structure AddReqInput where
  rtype : ReqType := ReqType.external
  origin : ℤ := 1
  destination : ℤ := 2
  elevatorId : Option ℕ := none
  isMorningRush : Bool := false
deriving DecidableEq, Repr

/-- The `{ok, message, request?}` result of `sim.addManualRequest`. -/
structure AddResult where
  ok : Bool
  message : String
  request : Option Request
deriving DecidableEq, Repr

/-- The request record literal built at the top of `sim.addManualRequest`
(the fresh uuid is passed in as `newId`). -/
def newRequest (inp : AddReqInput) (newId : ℕ) (now : ℚ) : Request :=
  { id := newId, timestamp := now, rtype := inp.rtype,
    origin := some inp.origin, destination := some inp.destination,
    basePriority := 1, priority := 1, escalated := false,
    isMorningRush := inp.isMorningRush, assignedTo := none,
    pickupTime := none, dropoffTime := none, direction := none }

/-- `sim.addManualRequest({type, origin, destination, elevatorId,
isMorningRush})` from the simulation service: internal requests with a named
elevator take the immediate-boarding fast path (rejecting an unknown or full
elevator); everything else is enqueued as pending. -/
def addManualRequest (s : SimState) (inp : AddReqInput) (newId : ℕ) :
    AddResult × SimState :=
  let r := newRequest inp newId s.clock.simTime
  if inp.rtype = ReqType.internal ∧ inp.elevatorId.isSome then
    match s.elevators.find? (fun x => some x.id = inp.elevatorId) with
    | none => ({ ok := false, message := "Elevator not found.", request := none }, s)
    | some elev =>
      if elev.capacity ≤ elev.passengerCount then
        ({ ok := false, message := "Elevator is full.", request := none }, s)
      else
        let r2 := { r with assignedTo := some elev.id, pickupTime := some s.clock.simTime }
        let elev2 := { elev with
          targetFloors := pushDest elev.targetFloors r2.destination,
          passengerCount := elev.passengerCount + 1 }
        ({ ok := true, message := "Request added to elevator", request := some r2 },
         { s with elevators := s.elevators.map (fun x => if x.id = elev.id then elev2 else x),
                  pendingRequests := s.pendingRequests ++ [r2] })
  else
    ({ ok := true, message := "Request queued", request := some r },
     { s with pendingRequests := s.pendingRequests ++ [r] })

/-- Result of the REST `addRequest` controller: HTTP status plus the body
`ok` flag. -/
structure CtrlResult where
  status : ℕ
  ok : Bool
deriving DecidableEq, Repr

/-- The validating `addRequest` controller from the request controller
module: reject missing (falsy) floors, equal floors, and floors outside
`[1, nFloors]`, before delegating to `sim.addManualRequest`. -/
def addRequestCtrl (s : SimState) (inp : AddReqInput) (newId : ℕ) :
    CtrlResult × SimState :=
  if inp.origin = 0 ∨ inp.destination = 0 then
    ({ status := 400, ok := false }, s)
  else if inp.origin = inp.destination then
    ({ status := 400, ok := false }, s)
  else if inp.origin < 1 ∨ inp.destination < 1 ∨
      s.config.nFloors < inp.origin ∨ s.config.nFloors < inp.destination then
    ({ status := 400, ok := false }, s)
  else
    let res := addManualRequest s inp newId
    if res.1.ok then ({ status := 200, ok := true }, res.2)
    else ({ status := 400, ok := false }, res.2)

/-- `sim.init(config)` with an empty override: rebuild the elevator fleet
(floor 1, capacity 6, `statusSince` stamped with the current sim time,
`buildingFloors` set to `nFloors`), clear both request ledgers. -/
def initSim (s : SimState) : SimState :=
  { s with
    elevators := (List.range s.config.nElevators).map (fun i =>
      { createElevator (i + 1) 1 6 with
          statusSince := s.clock.simTime, buildingFloors := s.config.nFloors }),
    pendingRequests := [], servedRequests := [] }

/-- `sim.stop()` (timer handles are not part of the embedded state). -/
def stopSim (s : SimState) : SimState :=
  if s.running then { s with running := false } else s

/-- `sim.reset()`: stop, fresh clock, re-init, broadcast (a broadcast does
not change engine state). -/
def resetSim (s : SimState) : SimState :=
  initSim { stopSim s with clock := createSimClock }

/-- A fully initialized engine for a configuration, as after the first
`init`: fresh clock then `sim.init({})`. -/
def initialSim (cfg : Config) : SimState :=
  initSim { clock := createSimClock, config := cfg, elevators := [],
            pendingRequests := [], servedRequests := [], running := false,
            utilSamples := [] }

/-! ### sim-clock.js: operation sequences for the monotonicity claim -/

/-- An operation on the virtual clock reachable from the command surface:
a tick advance, or a speed command (whose payload goes through
`Number(data.speed) || 1`, see `speedCoerce`). -/
inductive ClockOp where
  | advance (realDt : ℚ)
  | speedCmd (x : ℚ)
deriving DecidableEq, Repr

/-- Apply one clock operation. -/
def applyClockOp (c : Clock) : ClockOp → Clock
  | ClockOp.advance dt => c.advance dt
  | ClockOp.speedCmd x => c.withSpeed (speedCoerce x)

/-- Run a sequence of clock operations. -/
def runClockOps (c : Clock) : List ClockOp → Clock
  | [] => c
  | op :: ops => runClockOps (applyClockOp c op) ops

/-- Operations whose payloads are non-negative (non-negative tick deltas,
non-negative speed commands). -/
def clockOpNonneg : ClockOp → Prop
  | ClockOp.advance dt => 0 ≤ dt
  | ClockOp.speedCmd x => 0 ≤ x

instance (op : ClockOp) : Decidable (clockOpNonneg op) := by
  cases op <;> (unfold clockOpNonneg; infer_instance)

/-! ### app.js: snapshot and its aliasing

`snapshot()` copies each elevator record with the object spread `{...e}`.
A spread copies field values; for the `targetFloors` field the value is an
array reference, so the copy and the engine elevator point at the same
array.  To make that observable in a pure embedding, this section models
the arrays behind `targetFloors` as slots of an explicit array store and
the elevator records as holding a reference into it. -/

/-- An array store: slot `i` holds the array with reference `i`. -/
abbrev ArrStore := List (List ℤ)

/-- Read the array behind a reference (a dangling reference reads `[]`). -/
def readArr (h : ArrStore) (ref : ℕ) : List ℤ := h.getD ref []

/-- Overwrite the array behind a reference. -/
def writeArr (h : ArrStore) (ref : ℕ) (v : List ℤ) : ArrStore := h.set ref v

/-- `array.push(x)` through a reference. -/
def pushArr (h : ArrStore) (ref : ℕ) (x : ℤ) : ArrStore :=
  writeArr h ref (readArr h ref ++ [x])

/-- An elevator record as seen by `snapshot()`, with its `targetFloors`
field holding an array reference. -/
structure ElevObj where
  id : ℕ
  currentFloor : ℤ
  targetFloorsRef : ℕ
  direction : Dir
  doorState : DoorState
  passengerCount : ℕ
  capacity : ℕ
deriving DecidableEq, Repr

/-- The object spread `{...e}` applied to an elevator record: a fresh record
whose fields hold the same values, the `targetFloors` array reference
included. -/
def spreadElev (e : ElevObj) : ElevObj :=
  { id := e.id, currentFloor := e.currentFloor,
    targetFloorsRef := e.targetFloorsRef, direction := e.direction,
    doorState := e.doorState, passengerCount := e.passengerCount,
    capacity := e.capacity }

/-- `this.elevators.map((e) => ({ ...e }))` inside `snapshot()`. -/
def snapshotElevs (es : List ElevObj) : List ElevObj := es.map spreadElev

/-- Modelled from the spec: the deep copy the specification describes, which
would allocate a fresh array for each elevator route.  `base` is the first
free reference of the store.  Returned: copied records and the grown
store. -/
def deepSnapshotElevs (es : List ElevObj) (h : ArrStore) (base : ℕ) :
    List ElevObj × ArrStore :=
  ((List.range es.length).map (fun i =>
      { (es.getD i { id := 0, currentFloor := 0, targetFloorsRef := 0,
                     direction := Dir.idle, doorState := DoorState.closed,
                     passengerCount := 0, capacity := 0 }) with
          targetFloorsRef := base + i }),
   h ++ es.map (fun e => readArr h e.targetFloorsRef))

/-! ### Invariants -/

/-- A floor lies inside the building: `f ∈ [1, nFloors]`. -/
def floorOK (cfg : Config) (f : ℤ) : Prop := 1 ≤ f ∧ f ≤ cfg.nFloors

instance (cfg : Config) (f : ℤ) : Decidable (floorOK cfg f) := by
  unfold floorOK; infer_instance

/-- A nullable floor field lies inside the building when present. -/
def optFloorOK (cfg : Config) : Option ℤ → Prop
  | none => True
  | some f => floorOK cfg f

instance (cfg : Config) (o : Option ℤ) : Decidable (optFloorOK cfg o) := by
  cases o <;> (unfold optFloorOK; infer_instance)

/-- Weak per-elevator well-formedness: occupancy within capacity, current
floor and every scheduled floor inside the building. -/
def elevRange (cfg : Config) (e : Elevator) : Prop :=
  e.passengerCount ≤ e.capacity ∧ floorOK cfg e.currentFloor ∧
    ∀ f ∈ e.targetFloors, floorOK cfg f

instance (cfg : Config) (e : Elevator) : Decidable (elevRange cfg e) := by
  unfold elevRange; infer_instance

/-- The claimed per-elevator invariant: `elevRange` plus a duplicate-free
route. -/
def elevInv (cfg : Config) (e : Elevator) : Prop :=
  elevRange cfg e ∧ e.targetFloors.Nodup

instance (cfg : Config) (e : Elevator) : Decidable (elevInv cfg e) := by
  unfold elevInv; infer_instance

/-- Request floor well-formedness: origin and destination (when present)
inside the building. -/
def reqFloorsOK (cfg : Config) (r : Request) : Prop :=
  optFloorOK cfg r.origin ∧ optFloorOK cfg r.destination

instance (cfg : Config) (r : Request) : Decidable (reqFloorsOK cfg r) := by
  unfold reqFloorsOK; infer_instance

/-- Engine-wide inductive invariant: every elevator satisfies `elevInv` and
every pending request carries in-building floors. -/
def stateInv (s : SimState) : Prop :=
  (∀ e ∈ s.elevators, elevInv s.config e) ∧
    (∀ r ∈ s.pendingRequests, reqFloorsOK s.config r)

instance (s : SimState) : Decidable (stateInv s) := by
  unfold stateInv; infer_instance

/-! ### Concrete fixtures used by witnesses and counterexamples -/

/-- An external request 5 → 9 as `addManualRequest` would mint it. -/
def rFix : Request :=
  newRequest { rtype := ReqType.external, origin := 5, destination := 9,
               elevatorId := none, isMorningRush := false } 42 0

/-- A car at floor 3 moving up with route `[8]`. -/
def e3Fix : Elevator :=
  { (createElevator 1 3 6) with direction := Dir.up, targetFloors := [8] }

/-- Unassigned pickup at floor 5 (between 3 and 8). -/
def r5Fix : Request := rFix

/-- Unassigned pickup exactly at floor 8 — the far endpoint of the route. -/
def r8Fix : Request := { rFix with origin := some 8 }

/-- A car with its door open since sim-time 100, with a pending target. -/
def eOpenFix : Elevator :=
  { (createElevator 1 4 6) with
    doorState := DoorState.opened, statusSince := 100, targetFloors := [7] }

/-- A freshly initialized engine under the default configuration. -/
def sInitFix : SimState := initialSim defaultConfig

/-- The same engine with every elevator at capacity. -/
def sFullFix : SimState :=
  { sInitFix with elevators :=
      sInitFix.elevators.map (fun e => { e with passengerCount := 6 }) }

/-- An external request whose origin equals its destination. -/
def inpEqFix : AddReqInput :=
  { rtype := ReqType.external, origin := 5, destination := 5,
    elevatorId := none, isMorningRush := false }

/-- An internal request naming elevator 2. -/
def inpIntFix : AddReqInput :=
  { rtype := ReqType.internal, origin := 2, destination := 7,
    elevatorId := some 2, isMorningRush := false }

/-- An internal request naming an elevator id that does not exist. -/
def inpNFFix : AddReqInput :=
  { rtype := ReqType.internal, origin := 2, destination := 7,
    elevatorId := some 99, isMorningRush := false }

/-- An escalated candidate pair with a low score. -/
def pairAFix : Pair :=
  { elevId := 1, reqId := 1, escalated := true, score := 0, eta := 500, util := 0 }

/-- A non-escalated candidate pair with a much higher score. -/
def pairBFix : Pair :=
  { elevId := 2, reqId := 2, escalated := false, score := 100, eta := 0, util := 0 }

/-- A one-slot array store holding the route `[8]`. -/
def hFix : ArrStore := [[8]]

/-- An elevator object whose route lives in slot 0 of `hFix`. -/
def eoFix : ElevObj :=
  { id := 1, currentFloor := 3, targetFloorsRef := 0, direction := Dir.up,
    doorState := DoorState.closed, passengerCount := 0, capacity := 6 }

/-! ### Helper lemmas -/

theorem foldl_preserve {α β : Type*} (P : β → Prop) (f : β → α → β) :
    ∀ (l : List α) (init : β), P init →
      (∀ st a, a ∈ l → P st → P (f st a)) → P (l.foldl f init) := by
  intro l
  induction l with
  | nil => intro init h _; exact h
  | cons a l ih =>
    intro init h hstep
    exact ih (f init a) (hstep init a (List.mem_cons_self a l) h)
      (fun st b hb => hstep st b (List.mem_cons_of_mem a hb))

theorem setDedupAux_nodup : ∀ (l acc : List ℤ), acc.Nodup → (setDedupAux l acc).Nodup := by
  intro l
  induction l with
  | nil => intro acc h; simpa [setDedupAux] using h
  | cons x xs ih =>
    intro acc h
    unfold setDedupAux
    by_cases hx : x ∈ acc
    · simpa [hx] using ih acc h
    · simpa [hx] using ih (x :: acc) (List.nodup_cons.mpr ⟨hx, h⟩)

theorem setDedup_nodup (l : List ℤ) : (setDedup l).Nodup :=
  setDedupAux_nodup l [] List.nodup_nil

theorem setDedupAux_subset :
    ∀ (l acc : List ℤ) (x : ℤ), x ∈ setDedupAux l acc → x ∈ l ∨ x ∈ acc := by
  intro l
  induction l with
  | nil => intro acc x hx; right; simpa [setDedupAux] using hx
  | cons a as ih =>
    intro acc x hx
    unfold setDedupAux at hx
    by_cases ha : a ∈ acc
    · rw [if_pos ha] at hx
      rcases ih acc x hx with h | h
      · exact Or.inl (List.mem_cons_of_mem a h)
      · exact Or.inr h
    · rw [if_neg ha] at hx
      rcases ih (a :: acc) x hx with h | h
      · exact Or.inl (List.mem_cons_of_mem a h)
      · rcases List.mem_cons.mp h with rfl | h
        · exact Or.inl (List.mem_cons_self _ _)
        · exact Or.inr h

theorem setDedup_subset {l : List ℤ} {x : ℤ} (h : x ∈ setDedup l) : x ∈ l := by
  rcases setDedupAux_subset l [] x h with h | h
  · exact h
  · cases h

theorem nodup_append_singleton {l : List ℤ} {d : ℤ} (hd : d ∉ l) (h : l.Nodup) :
    (l ++ [d]).Nodup := by
  induction l with
  | nil => simp
  | cons a as ih =>
    rcases List.nodup_cons.mp h with ⟨ha, has⟩
    refine List.nodup_cons.mpr ⟨?_, ih (fun hm => hd (List.mem_cons_of_mem a hm)) has⟩
    intro hmem
    rcases List.mem_append.mp hmem with h1 | h1
    · exact ha h1
    · rcases List.mem_singleton.mp h1 with rfl
      exact hd (List.mem_cons_self _ _)

theorem pushDest_nodup {tf : List ℤ} (h : tf.Nodup) (o : Option ℤ) :
    (pushDest tf o).Nodup := by
  cases o with
  | none => exact h
  | some d =>
    unfold pushDest
    by_cases hm : d ∈ tf
    · simpa [hm] using h
    · simpa [hm] using nodup_append_singleton hm h

theorem pushDest_subset {tf : List ℤ} {o : Option ℤ} {x : ℤ}
    (h : x ∈ pushDest tf o) : x ∈ tf ∨ o = some x := by
  cases o with
  | none => exact Or.inl h
  | some d =>
    change x ∈ (if d ∈ tf then tf else tf ++ [d]) at h
    by_cases hm : d ∈ tf
    · rw [if_pos hm] at h; exact Or.inl h
    · rw [if_neg hm] at h
      rcases List.mem_append.mp h with h1 | h1
      · exact Or.inl h1
      · rcases List.mem_singleton.mp h1 with rfl
        exact Or.inr rfl

theorem moveLoop_bounds :
    ∀ (n : ℕ) (cur t : ℤ) (d : Dir),
      min cur t ≤ (moveLoop n cur t d).1 ∧ (moveLoop n cur t d).1 ≤ max cur t := by
  intro n
  induction n with
  | zero => intro cur t d; constructor <;> simp [moveLoop]
  | succ n ih =>
    intro cur t d
    unfold moveLoop
    by_cases h1 : cur < t
    · rw [if_pos h1]
      by_cases h2 : cur + 1 = t
      · rw [if_pos h2]; constructor <;> simp
      · rw [if_neg h2]
        rcases ih (cur + 1) t Dir.up with ⟨ha, hb⟩
        constructor <;> omega
    · rw [if_neg h1]
      by_cases h3 : t < cur
      · rw [if_pos h3]
        by_cases h2 : cur - 1 = t
        · rw [if_pos h2]; constructor <;> simp
        · rw [if_neg h2]
          rcases ih (cur - 1) t Dir.down with ⟨ha, hb⟩
          constructor <;> omega
      · rw [if_neg h3]; constructor <;> simp

theorem escalStep_origin (now : ℚ) (r : Request) :
    (escalStep now r).origin = r.origin := by
  unfold escalStep
  by_cases h : r.escalated = false ∧ 30000 ≤ now - r.timestamp
  · rw [if_pos h]
  · rw [if_neg h]

theorem escalStep_isMorningRush (now : ℚ) (r : Request) :
    (escalStep now r).isMorningRush = r.isMorningRush := by
  unfold escalStep
  by_cases h : r.escalated = false ∧ 30000 ≤ now - r.timestamp
  · rw [if_pos h]
  · rw [if_neg h]

theorem escalStep_priority_of_not (now : ℚ) (r : Request)
    (h : ¬(r.escalated = false ∧ 30000 ≤ now - r.timestamp)) :
    (escalStep now r).priority =
      (if r.basePriority = 0 then 1 else r.basePriority)
        + (now - r.timestamp) * (1 / 1000) := by
  unfold escalStep; rw [if_neg h]

theorem escalStep_escalated_of_not (now : ℚ) (r : Request)
    (h : ¬(r.escalated = false ∧ 30000 ≤ now - r.timestamp)) :
    (escalStep now r).escalated = r.escalated := by
  unfold escalStep; rw [if_neg h]

theorem lobbyStep_escalated (cfg : Config) (rush : Bool) (r : Request) :
    (lobbyStep cfg rush r).escalated = r.escalated := by
  unfold lobbyStep
  by_cases hl : lobbyCond cfg rush r
  · rw [if_pos hl]
  · rw [if_neg hl]

theorem lobbyStep_priority (cfg : Config) (rush : Bool) (r : Request) :
    (lobbyStep cfg rush r).priority =
      if lobbyCond cfg rush r then r.priority + r.priority * (1 / 2)
      else r.priority := by
  unfold lobbyStep
  by_cases hl : lobbyCond cfg rush r
  · rw [if_pos hl, if_pos hl]
  · rw [if_neg hl, if_neg hl]

theorem lobbyCond_congr (cfg : Config) (rush : Bool) {r₁ r₂ : Request}
    (h1 : r₁.origin = r₂.origin) (h2 : r₁.isMorningRush = r₂.isMorningRush) :
    lobbyCond cfg rush r₁ ↔ lobbyCond cfg rush r₂ := by
  unfold lobbyCond; rw [h1, h2]

/-! ### C6: door dwell gate -/

/-- C6: when an elevator's door is open and `now − statusSince < doorDwell`,
the motion step returns with the elevator, the pending set and the served
archive all unchanged — the door stays open, and no field (currentFloor,
direction, route, passengerCount, statusSince, movement accumulator) moves,
and no pickup or dropoff is processed. -/
theorem door_dwell_gate_frame (cfg : Config) (now dt : ℚ) (e : Elevator)
    (pend served : List Request)
    (hdoor : e.doorState = DoorState.opened)
    (hdwell : now - e.statusSince < cfg.doorDwell) :
    processMove cfg now dt e pend served = (e, pend, served) := by
  unfold processMove
  rw [if_pos ⟨hdoor, hdwell⟩]

/-- Witness for C6 at a concrete input: door open since 100, now 600,
dwell 2000. -/
theorem door_dwell_gate_frame_witness :
    processMove defaultConfig 600 200 eOpenFix [] [] = (eOpenFix, [], []) :=
  door_dwell_gate_frame defaultConfig 600 200 eOpenFix [] [] rfl
    (by norm_num [eOpenFix, createElevator, defaultConfig])

/-! ### C7: reset -/

/-- C7: after `reset`, from any prior engine state, the served archive is
empty, the pending set is empty, every elevator sits at floor 1 idle with a
closed door and no passengers, and the clock's simTime is 0. -/
theorem reset_clears_lifecycle (s : SimState) :
    (resetSim s).servedRequests = [] ∧
    (resetSim s).servedRequests.length = 0 ∧
    (resetSim s).pendingRequests = [] ∧
    (resetSim s).clock.simTime = 0 ∧
    ∀ e ∈ (resetSim s).elevators,
      e.currentFloor = 1 ∧ e.direction = Dir.idle ∧
        e.doorState = DoorState.closed ∧ e.passengerCount = 0 := by
  refine ⟨rfl, rfl, rfl, rfl, ?_⟩
  intro e he
  simp only [resetSim, initSim, List.mem_map] at he
  obtain ⟨i, _, rfl⟩ := he
  exact ⟨rfl, rfl, rfl, rfl⟩

/-- Witness for C7: resetting the engine after a tick clears the ledgers and
the clock. -/
theorem reset_clears_lifecycle_witness :
    (resetSim (tick 200 sInitFix)).servedRequests = []
      ∧ (resetSim (tick 200 sInitFix)).pendingRequests = []
      ∧ (resetSim (tick 200 sInitFix)).clock.simTime = 0 :=
  ⟨(reset_clears_lifecycle (tick 200 sInitFix)).1,
   (reset_clears_lifecycle (tick 200 sInitFix)).2.2.1,
   (reset_clears_lifecycle (tick 200 sInitFix)).2.2.2.1⟩

/-! ### C9: clock monotonicity -/

/-- C9 counterexample: the command surface admits `setSpeed(-1)`
(`Number(-1) || 1 = -1`), after which an `advance` with a non-negative real
delta strictly decreases simTime — refuting monotonicity as claimed. -/
theorem clock_monotone_counterexample :
    (0:ℚ) ≤ 200 ∧
      (runClockOps createSimClock
          [ClockOp.speedCmd (-1), ClockOp.advance 200]).simTime
        < (runClockOps createSimClock [ClockOp.speedCmd (-1)]).simTime := by
  norm_num [runClockOps, applyClockOp, Clock.advance, Clock.withSpeed,
    speedCoerce, createSimClock]

/-- C9 (amended): simTime is monotone non-decreasing across every sequence
of `advance` and speed commands whose payloads are non-negative; the speed
also stays non-negative along the run. -/
theorem clock_monotone_nonneg (c : Clock) (ops : List ClockOp)
    (hops : ∀ op ∈ ops, clockOpNonneg op) (hspeed : 0 ≤ c.speed) :
    c.simTime ≤ (runClockOps c ops).simTime ∧ 0 ≤ (runClockOps c ops).speed := by
  induction ops generalizing c with
  | nil => exact ⟨le_refl _, hspeed⟩
  | cons op ops ih =>
    have hop := hops op (List.mem_cons_self op ops)
    have hrest : ∀ o ∈ ops, clockOpNonneg o :=
      fun o ho => hops o (List.mem_cons_of_mem op ho)
    cases op with
    | advance dt =>
      have hdt : 0 ≤ dt := hop
      have hstep : c.simTime ≤ (c.advance dt).simTime := by
        simp only [Clock.advance]
        nlinarith
      have hsp : 0 ≤ (c.advance dt).speed := hspeed
      have h := ih (c.advance dt) hrest hsp
      exact ⟨le_trans hstep h.1, h.2⟩
    | speedCmd x =>
      have hx : 0 ≤ x := hop
      have hsp : 0 ≤ (c.withSpeed (speedCoerce x)).speed := by
        simp only [Clock.withSpeed, speedCoerce]
        split
        · norm_num
        · exact hx
      have h := ih (c.withSpeed (speedCoerce x)) hrest hsp
      exact ⟨h.1, h.2⟩

/-- Witness for C9 (amended) at a concrete run. -/
theorem clock_monotone_nonneg_witness :
    createSimClock.simTime ≤
        (runClockOps createSimClock
          [ClockOp.speedCmd 2, ClockOp.advance 100, ClockOp.advance 50]).simTime ∧
      0 ≤ (runClockOps createSimClock
          [ClockOp.speedCmd 2, ClockOp.advance 100, ClockOp.advance 50]).speed :=
  clock_monotone_nonneg createSimClock
    [ClockOp.speedCmd 2, ClockOp.advance 100, ClockOp.advance 50]
    (by intro op hop
        rcases List.mem_cons.mp hop with rfl | hop
        · norm_num [clockOpNonneg]
        rcases List.mem_cons.mp hop with rfl | hop
        · norm_num [clockOpNonneg]
        rcases List.mem_cons.mp hop with rfl | hop
        · norm_num [clockOpNonneg]
        · cases hop)
    (by norm_num [createSimClock])

/-! ### C3 and C10: priority refresh and escalation -/

/-- C3: the per-tick priority refresh first recomputes
`priority = basePriority + (now − timestamp) × 0.001`, and when the request
is not yet escalated and has waited at least 30000 sim-ms it additionally
sets the escalated flag and adds 2000 (the lobby multiplier of the refresh
runs after these two steps). -/
theorem priority_refresh (now : ℚ) (s : SimState) (r : Request)
    (hbase : r.basePriority ≠ 0) :
    ((updatePriorities now s).pendingRequests =
        s.pendingRequests.map (refreshRequest now s.config (isMorningRushWindow now)))
    ∧ (refreshRequest now s.config (isMorningRushWindow now) r
        = lobbyStep s.config (isMorningRushWindow now) (escalStep now r))
    ∧ ((r.escalated = false ∧ 30000 ≤ now - r.timestamp) →
        (escalStep now r).priority
            = r.basePriority + (now - r.timestamp) * (1 / 1000) + 2000
          ∧ (escalStep now r).escalated = true)
    ∧ (¬(r.escalated = false ∧ 30000 ≤ now - r.timestamp) →
        (escalStep now r).priority = r.basePriority + (now - r.timestamp) * (1 / 1000)
          ∧ (escalStep now r).escalated = r.escalated) := by
  refine ⟨rfl, rfl, ?_, ?_⟩
  · intro h
    unfold escalStep
    rw [if_pos h]
    exact ⟨by simp [hbase], rfl⟩
  · intro h
    unfold escalStep
    rw [if_neg h]
    exact ⟨by simp [hbase], rfl⟩

/-- Witness for C3: a request from sim-time 0 refreshed at 40000 escalates
and lands at priority 2041. -/
theorem priority_refresh_witness :
    (escalStep 40000 rFix).priority
        = rFix.basePriority + (40000 - rFix.timestamp) * (1 / 1000) + 2000
      ∧ (escalStep 40000 rFix).escalated = true :=
  (priority_refresh 40000 sInitFix rFix
      (by norm_num [rFix, newRequest])).2.2.1
    ⟨rfl, by norm_num [rFix, newRequest]⟩

/-- C10: for a request already escalated, a refresh recomputes the priority
as `(basePriority or 1) + waited × 0.001`, times 1.5 exactly under the lobby
morning-rush condition, without re-adding the 2000; only the flag
persists. -/
theorem escalation_bonus_transient (now : ℚ) (s : SimState) (r : Request)
    (hesc : r.escalated = true) :
    (refreshRequest now s.config (isMorningRushWindow now) r).escalated = true
    ∧ (refreshRequest now s.config (isMorningRushWindow now) r).priority =
        (if lobbyCond s.config (isMorningRushWindow now) r then
            ((if r.basePriority = 0 then 1 else r.basePriority)
                + (now - r.timestamp) * (1 / 1000)) * (3 / 2)
          else
            (if r.basePriority = 0 then 1 else r.basePriority)
                + (now - r.timestamp) * (1 / 1000))
    ∧ (updatePriorities now s).pendingRequests =
        s.pendingRequests.map (refreshRequest now s.config (isMorningRushWindow now)) := by
  have hcond : ¬(r.escalated = false ∧ 30000 ≤ now - r.timestamp) := by
    simp [hesc]
  have hpr := escalStep_priority_of_not now r hcond
  have hcg := lobbyCond_congr s.config (isMorningRushWindow now)
    (escalStep_origin now r) (escalStep_isMorningRush now r)
  refine ⟨?_, ?_, rfl⟩
  · unfold refreshRequest
    rw [lobbyStep_escalated, escalStep_escalated_of_not now r hcond]
    exact hesc
  · unfold refreshRequest
    rw [lobbyStep_priority, hpr]
    by_cases hl : lobbyCond s.config (isMorningRushWindow now) r
    · rw [if_pos (hcg.mpr hl), if_pos hl]
      ring
    · rw [if_neg (fun hc => hl (hcg.mp hc)), if_neg hl]

/-- Witness for C10: an escalated lobby-flagged request refreshed at 40000
keeps its flag and lands at 61.5 (no 2000 re-added). -/
theorem escalation_bonus_transient_witness :
    (refreshRequest 40000 sInitFix.config (isMorningRushWindow 40000)
        { rFix with escalated := true, origin := some 1, isMorningRush := true }).escalated
        = true
    ∧ (refreshRequest 40000 sInitFix.config (isMorningRushWindow 40000)
        { rFix with escalated := true, origin := some 1, isMorningRush := true }).priority
        = (123 / 2 : ℚ) := by
  have h := escalation_bonus_transient 40000 sInitFix
    { rFix with escalated := true, origin := some 1, isMorningRush := true } rfl
  refine ⟨h.1, ?_⟩
  rw [h.2.1, if_pos ?_]
  · norm_num [rFix, newRequest]
  · refine ⟨?_, ?_, Or.inr rfl⟩
    · norm_num [sInitFix, initialSim, initSim, defaultConfig]
    · norm_num [sInitFix, initialSim, initSim, defaultConfig, rFix, newRequest]

/-! ### C4: ordering of the candidate pair list -/

/-- C4: in the scheduler's pair sort, `a` precedes `b` (comparator negative)
exactly when `a`'s request is escalated and `b`'s is not; or, at equal
escalation status, `a`'s score is higher; or, at equal scores, `a`'s eta is
lower; or, at equal etas, `a`'s elevator has accumulated less utilTime. -/
theorem scheduler_pair_order (a b : Pair) :
    pairCmp a b < 0 ↔
      ((a.escalated = true ∧ b.escalated = false)
        ∨ (a.escalated = b.escalated ∧ b.score < a.score)
        ∨ (a.escalated = b.escalated ∧ a.score = b.score ∧ a.eta < b.eta)
        ∨ (a.escalated = b.escalated ∧ a.score = b.score ∧ a.eta = b.eta
            ∧ a.util < b.util)) := by
  have key : ∀ s₁ s₂ e₁ e₂ u₁ u₂ : ℚ,
      ((if s₂ ≠ s₁ then s₂ - s₁ else if e₁ ≠ e₂ then e₁ - e₂ else u₁ - u₂) < 0 ↔
        (s₂ < s₁ ∨ (s₁ = s₂ ∧ e₁ < e₂) ∨ (s₁ = s₂ ∧ e₁ = e₂ ∧ u₁ < u₂))) := by
    intro s₁ s₂ e₁ e₂ u₁ u₂
    by_cases h1 : s₂ ≠ s₁
    · rw [if_pos h1, sub_neg]
      constructor
      · exact fun h => Or.inl h
      · rintro (h | ⟨hs, _⟩ | ⟨hs, _⟩)
        · exact h
        · exact absurd hs.symm h1
        · exact absurd hs.symm h1
    · push_neg at h1
      rw [if_neg (by simp [h1])]
      by_cases h2 : e₁ ≠ e₂
      · rw [if_pos h2, sub_neg]
        constructor
        · exact fun h => Or.inr (Or.inl ⟨h1.symm, h⟩)
        · rintro (h | ⟨_, h⟩ | ⟨_, he, _⟩)
          · exact absurd h (by rw [h1]; exact lt_irrefl s₁)
          · exact h
          · exact absurd he h2
      · push_neg at h2
        rw [if_neg (by simp [h2]), sub_neg]
        constructor
        · exact fun h => Or.inr (Or.inr ⟨h1.symm, h2, h⟩)
        · rintro (h | ⟨_, h⟩ | ⟨_, _, h⟩)
          · exact absurd h (by simp [h1])
          · exact absurd h (by simp [h2])
          · exact h
  unfold pairCmp
  cases ha : a.escalated <;> cases hb : b.escalated
  · -- neither escalated
    simp only [Bool.false_eq_true, if_false]
    rw [if_neg (by norm_num)]
    rw [key a.score b.score a.eta b.eta a.util b.util]
    simp
  · -- a not escalated, b escalated: a never precedes b
    simp only [Bool.false_eq_true, if_true, if_false]
    rw [if_pos (by norm_num)]
    constructor
    · intro h; norm_num at h
    · rintro (⟨h, _⟩ | ⟨h, _⟩ | ⟨h, _⟩ | ⟨h, _⟩) <;> simp at h
  · -- a escalated, b not: a always precedes b
    simp only [Bool.false_eq_true, if_true, if_false]
    rw [if_pos (by norm_num)]
    constructor
    · intro _; simp
    · intro _; norm_num
  · -- both escalated
    simp only [if_true]
    rw [if_neg (by norm_num)]
    rw [key a.score b.score a.eta b.eta a.util b.util]
    simp

/-! ### C2: addManualRequest results -/

/-- C2 counterexample: an external request with origin = destination = 5 is
accepted by `addManualRequest` (ok true) and enqueued, although the claim
demands a failing result with no engine mutation. -/
theorem addManualRequest_equal_floors_counterexample :
    (addManualRequest sInitFix inpEqFix 7).1.ok = true
    ∧ (addManualRequest sInitFix inpEqFix 7).2.pendingRequests.length
        = sInitFix.pendingRequests.length + 1 :=
  ⟨rfl, rfl⟩

/-- C2 (amended): `addManualRequest` itself fails — with the engine left
unchanged — exactly when the request is internal with a named elevator that
is unknown or full; origin = destination and out-of-range floors are
rejected (with no engine mutation) by the REST boundary `addRequest`
controller, not by `addManualRequest`, which otherwise enqueues the request
with ok true. -/
theorem addManualRequest_amended :
    (∀ (s : SimState) (inp : AddReqInput) (nid : ℕ),
        (addManualRequest s inp nid).1.ok = false ↔
          (inp.rtype = ReqType.internal ∧ inp.elevatorId.isSome = true ∧
            (s.elevators.find? (fun x => some x.id = inp.elevatorId) = none ∨
              ∃ e, s.elevators.find? (fun x => some x.id = inp.elevatorId) = some e ∧
                e.capacity ≤ e.passengerCount)))
    ∧ (∀ (s : SimState) (inp : AddReqInput) (nid : ℕ),
        (addManualRequest s inp nid).1.ok = false →
          (addManualRequest s inp nid).2 = s)
    ∧ (∀ (s : SimState) (inp : AddReqInput) (nid : ℕ),
        (addManualRequest s inp nid).1.ok = true →
          (addManualRequest s inp nid).2.pendingRequests.length
            = s.pendingRequests.length + 1)
    ∧ (∀ (s : SimState) (inp : AddReqInput) (nid : ℕ),
        (inp.origin = inp.destination ∨ inp.origin < 1 ∨ inp.destination < 1 ∨
            s.config.nFloors < inp.origin ∨ s.config.nFloors < inp.destination) →
          (addRequestCtrl s inp nid).1.ok = false
            ∧ (addRequestCtrl s inp nid).2 = s) := by
  have hshape : ∀ (s : SimState) (inp : AddReqInput) (nid : ℕ),
      (addManualRequest s inp nid).1.ok = false ∧ (addManualRequest s inp nid).2 = s
        ∨ (addManualRequest s inp nid).1.ok = true
            ∧ (addManualRequest s inp nid).2.pendingRequests.length
                = s.pendingRequests.length + 1 := by
    intro s inp nid
    unfold addManualRequest
    by_cases hint : inp.rtype = ReqType.internal ∧ inp.elevatorId.isSome
    · rw [if_pos hint]
      cases hfind : s.elevators.find? (fun x => some x.id = inp.elevatorId) with
      | none => exact Or.inl ⟨rfl, rfl⟩
      | some e =>
        dsimp only
        by_cases hcap : e.capacity ≤ e.passengerCount
        · rw [if_pos hcap]; exact Or.inl ⟨rfl, rfl⟩
        · rw [if_neg hcap]
          refine Or.inr ⟨rfl, ?_⟩
          simp
    · rw [if_neg hint]
      refine Or.inr ⟨rfl, ?_⟩
      simp
  refine ⟨?_, ?_, ?_, ?_⟩
  · intro s inp nid
    constructor
    · intro hok
      unfold addManualRequest at hok
      by_cases hint : inp.rtype = ReqType.internal ∧ inp.elevatorId.isSome
      · rw [if_pos hint] at hok
        cases hfind : s.elevators.find? (fun x => some x.id = inp.elevatorId) with
        | none => exact ⟨hint.1, hint.2, Or.inl rfl⟩
        | some e =>
          rw [hfind] at hok
          dsimp only at hok
          by_cases hcap : e.capacity ≤ e.passengerCount
          · exact ⟨hint.1, hint.2, Or.inr ⟨e, rfl, hcap⟩⟩
          · rw [if_neg hcap] at hok
            cases hok
      · rw [if_neg hint] at hok
        cases hok
    · rintro ⟨h1, h2, h3⟩
      unfold addManualRequest
      rw [if_pos ⟨h1, h2⟩]
      rcases h3 with hnone | ⟨e, hsome, hcap⟩
      · rw [hnone]
      · rw [hsome]
        dsimp only
        rw [if_pos hcap]
  · intro s inp nid hok
    rcases hshape s inp nid with ⟨_, h⟩ | ⟨h, _⟩
    · exact h
    · rw [hok] at h; cases h
  · intro s inp nid hok
    rcases hshape s inp nid with ⟨h, _⟩ | ⟨_, h⟩
    · rw [hok] at h; cases h
    · exact h
  · intro s inp nid hbad
    unfold addRequestCtrl
    by_cases h0 : inp.origin = 0 ∨ inp.destination = 0
    · rw [if_pos h0]; exact ⟨rfl, rfl⟩
    · rw [if_neg h0]
      by_cases heq : inp.origin = inp.destination
      · rw [if_pos heq]; exact ⟨rfl, rfl⟩
      · rw [if_neg heq]
        have hrange : inp.origin < 1 ∨ inp.destination < 1 ∨
            s.config.nFloors < inp.origin ∨ s.config.nFloors < inp.destination := by
          rcases hbad with h | h | h | h | h
          · exact absurd h heq
          · exact Or.inl h
          · exact Or.inr (Or.inl h)
          · exact Or.inr (Or.inr (Or.inl h))
          · exact Or.inr (Or.inr (Or.inr h))
        rw [if_pos hrange]
        exact ⟨rfl, rfl⟩

/-- Witness for C2 (amended): an internal request naming the unknown
elevator 99 fails and leaves the engine untouched. -/
theorem addManualRequest_amended_witness :
    (addManualRequest sInitFix inpNFFix 9).1.ok = false
    ∧ (addManualRequest sInitFix inpNFFix 9).2 = sInitFix := by
  have hok : (addManualRequest sInitFix inpNFFix 9).1.ok = false :=
    (addManualRequest_amended.1 sInitFix inpNFFix 9).mpr
      ⟨rfl, rfl, Or.inl (by decide)⟩
  exact ⟨hok, addManualRequest_amended.2.1 sInitFix inpNFFix 9 hok⟩

/-! ### C5: intra-trip batching -/

/-- C5 counterexample: a car at floor 3 moving up with route `[8]` is
offered a pickup exactly at floor 8 — the far endpoint, not strictly
between 3 and max(route) = 8 — yet the batching assigns the request and
appends the floor, refuting the claimed "exactly when strictly between"
condition. -/
theorem intra_trip_strict_counterexample :
    ((batchOne e3Fix r8Fix).2.assignedTo = some e3Fix.id
      ∧ (batchOne e3Fix r8Fix).1.targetFloors = e3Fix.targetFloors ++ [8])
    ∧ ¬(e3Fix.currentFloor < 8 ∧ (8:ℤ) < 8) := by
  exact ⟨⟨by decide, by decide⟩, by decide⟩

/-- C5 (amended): for a busy elevator moving up (resp. down), the batching
assigns an unassigned pending request with pickup `p` and appends `p` to
the route exactly when the car is below capacity and `p` lies strictly
above the current floor and at most max(route) (resp. strictly below the
current floor and at least min(route)); in particular the car at floor 3
going up with route `[8]` and a pickup at 5 ends with route `[8, 5]` after
the first-occurrence dedup. -/
theorem intra_trip_batch_amended (e : Elevator) (r : Request) (p : ℤ)
    (hp : pickupOf r = some p) :
    ((e.direction = Dir.up →
        (((batchOne e r).2.assignedTo = some e.id ∧
            (batchOne e r).1.targetFloors = e.targetFloors ++ [p]) ↔
          (r.assignedTo = none ∧ e.passengerCount < e.capacity ∧
            ∃ m, listMax e.targetFloors = some m ∧ e.currentFloor < p ∧ p ≤ m)))
      ∧ (e.direction = Dir.down →
        (((batchOne e r).2.assignedTo = some e.id ∧
            (batchOne e r).1.targetFloors = e.targetFloors ++ [p]) ↔
          (r.assignedTo = none ∧ e.passengerCount < e.capacity ∧
            ∃ m, listMin e.targetFloors = some m ∧ p < e.currentFloor ∧ m ≤ p))))
    ∧ ((batchElevator e3Fix [r5Fix]).1.targetFloors = [8, 5]
        ∧ (batchElevator e3Fix [r5Fix]).2
            = [{ r5Fix with assignedTo := some e3Fix.id }]) := by
  have hlen : e.targetFloors ≠ e.targetFloors ++ [p] := by
    intro hh
    have := congrArg List.length hh
    simp at this
  constructor
  · constructor
    · intro hup
      unfold batchOne
      rw [hp]
      by_cases h1 : r.assignedTo.isSome
      · rw [if_pos h1]
        constructor
        · rintro ⟨_, h⟩; exact absurd h hlen
        · rintro ⟨hnone, _⟩
          rw [hnone] at h1; cases h1
      · rw [if_neg h1]
        by_cases h2 : e.capacity ≤ e.passengerCount
        · rw [if_pos h2]
          constructor
          · rintro ⟨_, h⟩; exact absurd h hlen
          · rintro ⟨_, hlt, _⟩; omega
        · rw [if_neg h2]
          dsimp only
          rw [if_pos hup]
          cases hm : listMax e.targetFloors with
          | none =>
            dsimp only
            rw [if_neg (by simp)]
            constructor
            · rintro ⟨_, h⟩; exact absurd h hlen
            · rintro ⟨_, _, m, hm2, _⟩; cases hm2
          | some m =>
            dsimp only
            by_cases hb : e.currentFloor < p ∧ p ≤ m
            · rw [if_pos (by simpa using hb)]
              constructor
              · intro _
                exact ⟨Option.not_isSome_iff_eq_none.mp (by simpa using h1),
                  by omega, m, rfl, hb⟩
              · intro _; exact ⟨rfl, rfl⟩
            · rw [if_neg (by simpa using hb)]
              constructor
              · rintro ⟨_, h⟩; exact absurd h hlen
              · rintro ⟨_, _, m2, hm2, hb2⟩
                cases hm2
                exact absurd hb2 hb
    · intro hdown
      unfold batchOne
      rw [hp]
      by_cases h1 : r.assignedTo.isSome
      · rw [if_pos h1]
        constructor
        · rintro ⟨_, h⟩; exact absurd h hlen
        · rintro ⟨hnone, _⟩
          rw [hnone] at h1; cases h1
      · rw [if_neg h1]
        by_cases h2 : e.capacity ≤ e.passengerCount
        · rw [if_pos h2]
          constructor
          · rintro ⟨_, h⟩; exact absurd h hlen
          · rintro ⟨_, hlt, _⟩; omega
        · rw [if_neg h2]
          dsimp only
          rw [if_neg (show ¬(e.direction = Dir.up) by rw [hdown]; intro hc; cases hc)]
          cases hm : listMin e.targetFloors with
          | none =>
            dsimp only
            rw [if_neg (by simp)]
            constructor
            · rintro ⟨_, h⟩; exact absurd h hlen
            · rintro ⟨_, _, m, hm2, _⟩; cases hm2
          | some m =>
            dsimp only
            by_cases hb : p < e.currentFloor ∧ m ≤ p
            · rw [if_pos (by simpa using hb)]
              constructor
              · intro _
                exact ⟨Option.not_isSome_iff_eq_none.mp (by simpa using h1),
                  by omega, m, rfl, hb⟩
              · intro _; exact ⟨rfl, rfl⟩
            · rw [if_neg (by simpa using hb)]
              constructor
              · rintro ⟨_, h⟩; exact absurd h hlen
              · rintro ⟨_, _, m2, hm2, hb2⟩
                cases hm2
                exact absurd hb2 hb
  · exact ⟨by decide, by decide⟩

/-- Witness for C5 (amended): pickup at 5, strictly between 3 and 8, is
assigned and appended. -/
theorem intra_trip_batch_amended_witness :
    (batchOne e3Fix r5Fix).2.assignedTo = some e3Fix.id ∧
      (batchOne e3Fix r5Fix).1.targetFloors = e3Fix.targetFloors ++ [5] :=
  ((intra_trip_batch_amended e3Fix r5Fix 5 (by decide)).1.1 (by decide)).mpr
    ⟨by decide, by decide, 8, by decide, by decide, by decide⟩

/-! ### C8: snapshot aliasing -/

theorem getD_set_self {α : Type*} :
    ∀ (l : List α) (i : ℕ) (a d : α), i < l.length →
      (l.set i a).getD i d = a := by
  intro l
  induction l with
  | nil => intro i a d h; cases h
  | cons x xs ih =>
    intro i a d h
    cases i with
    | zero => rfl
    | succ n =>
      have hn : n < xs.length := by simpa using h
      simpa [List.set, List.getD] using
        (by simpa [List.getD] using ih n a d hn :
          (xs.set n a).getD n d = a)

/-- C8 counterexample: pushing 99 onto the route array reached through the
snapshot's elevator record changes what the engine's elevator reads — the
snapshot is not a defensive deep copy. -/
theorem snapshot_shallow_counterexample :
    readArr (pushArr hFix ((snapshotElevs [eoFix]).getD 0 eoFix).targetFloorsRef 99)
        eoFix.targetFloorsRef
      ≠ readArr hFix eoFix.targetFloorsRef := by
  decide

/-- C8 (amended): `snapshot()` copies each elevator record field-by-field
(so it mutates nothing itself), but the copied records hold the same
`targetFloors` array references as the engine's records, so pushing onto a
route array obtained from the snapshot is visible through the engine's own
reference. -/
theorem snapshot_shares_route_arrays (es : List ElevObj) (h : ArrStore) (v : ℤ) :
    ((snapshotElevs es).map (fun e => e.targetFloorsRef)
        = es.map (fun e => e.targetFloorsRef))
    ∧ (∀ e ∈ es, e.targetFloorsRef < h.length →
        readArr (pushArr h ((spreadElev e).targetFloorsRef) v) e.targetFloorsRef
          = readArr h e.targetFloorsRef ++ [v]) := by
  constructor
  · rw [snapshotElevs, List.map_map]
    rfl
  · intro e _ hlt
    show readArr (pushArr h e.targetFloorsRef v) e.targetFloorsRef = _
    unfold pushArr writeArr readArr
    exact getD_set_self h e.targetFloorsRef _ [] hlt

/-- Witness for C8 (amended) on the concrete one-elevator store. -/
theorem snapshot_shares_route_arrays_witness :
    readArr (pushArr hFix ((spreadElev eoFix).targetFloorsRef) 99)
        eoFix.targetFloorsRef
      = readArr hFix eoFix.targetFloorsRef ++ [99] :=
  (snapshot_shares_route_arrays [eoFix] hFix 99).2 eoFix
    (List.mem_singleton.mpr rfl) (by decide)

/-! ### C1: invariant preservation machinery -/

theorem escalStep_destination (now : ℚ) (r : Request) :
    (escalStep now r).destination = r.destination := by
  unfold escalStep
  by_cases h : r.escalated = false ∧ 30000 ≤ now - r.timestamp
  · rw [if_pos h]
  · rw [if_neg h]

theorem lobbyStep_origin (cfg : Config) (rush : Bool) (r : Request) :
    (lobbyStep cfg rush r).origin = r.origin := by
  unfold lobbyStep
  by_cases hl : lobbyCond cfg rush r
  · rw [if_pos hl]
  · rw [if_neg hl]

theorem lobbyStep_destination (cfg : Config) (rush : Bool) (r : Request) :
    (lobbyStep cfg rush r).destination = r.destination := by
  unfold lobbyStep
  by_cases hl : lobbyCond cfg rush r
  · rw [if_pos hl]
  · rw [if_neg hl]

theorem reqFloorsOK_refresh (cfg : Config) (now : ℚ) (cfg2 : Config) (rush : Bool)
    (r : Request) (h : reqFloorsOK cfg r) :
    reqFloorsOK cfg (refreshRequest now cfg2 rush r) := by
  unfold reqFloorsOK at h ⊢
  unfold refreshRequest
  rw [lobbyStep_origin, lobbyStep_destination, escalStep_origin, escalStep_destination]
  exact h

theorem optFloorOK_some {cfg : Config} {o : Option ℤ} {f : ℤ}
    (h : optFloorOK cfg o) (ho : o = some f) : floorOK cfg f := by
  rw [ho] at h
  exact h

theorem routePush_mem {r : Request} {x : ℤ} (hx : x ∈ routePush r) :
    r.origin = some x ∨ r.destination = some x := by
  unfold routePush at hx
  cases ho : r.origin with
  | none =>
    cases hd : r.destination with
    | none => rw [ho, hd] at hx; cases hx
    | some d =>
      rw [ho, hd] at hx
      simp at hx
      exact Or.inr (by rw [hx])
  | some o =>
    cases hd : r.destination with
    | none =>
      rw [ho, hd] at hx
      simp at hx
      exact Or.inl (by rw [hx])
    | some d =>
      rw [ho, hd] at hx
      rcases List.mem_append.mp hx with h1 | h1
      · rcases List.mem_singleton.mp h1 with rfl
        exact Or.inl rfl
      · rcases List.mem_singleton.mp h1 with rfl
        exact Or.inr rfl

theorem pickupOf_eq {r : Request} {p : ℤ} (hp : pickupOf r = some p) :
    r.origin = some p ∨ r.destination = some p := by
  unfold pickupOf at hp
  by_cases h : r.origin.isSome
  · rw [if_pos h] at hp
    exact Or.inl hp
  · rw [if_neg h] at hp
    exact Or.inr hp

theorem reqFloorsOK_pickup {cfg : Config} {r : Request} {p : ℤ}
    (h : reqFloorsOK cfg r) (hp : pickupOf r = some p) : floorOK cfg p := by
  rcases pickupOf_eq hp with ho | hd
  · exact optFloorOK_some h.1 ho
  · exact optFloorOK_some h.2 hd

/-- The invariant threaded through the greedy loop and the batching loop. -/
def pairInv (cfg : Config) (es : List Elevator) (pend : List Request) : Prop :=
  (∀ e ∈ es, elevInv cfg e) ∧ (∀ r ∈ pend, reqFloorsOK cfg r)

theorem greedyStep_inv (cfg : Config) (st : GreedySt) (p : Pair)
    (h : pairInv cfg st.elevators st.pending) :
    pairInv cfg (greedyStep st p).elevators (greedyStep st p).pending := by
  unfold greedyStep
  by_cases h1 : p.elevId ∈ st.usedE ∨ p.reqId ∈ st.usedR
  · rw [if_pos h1]; exact h
  · rw [if_neg h1]
    cases hfe : st.elevators.find? (fun e => e.id = p.elevId) with
    | none => exact h
    | some e =>
      cases hfr : st.pending.find? (fun r => r.id = p.reqId) with
      | none => exact h
      | some r =>
        dsimp only
        by_cases hc1 : e.capacity ≤ e.passengerCount
        · rw [if_pos hc1]; exact h
        · rw [if_neg hc1]
          by_cases hc2 : e.capacity ≤ e.passengerCount +
              (st.pending.filter
                (fun x => x.assignedTo = some p.elevId ∧
                  truthyNum x.pickupTime = false)).length
          · rw [if_pos hc2]; exact h
          · rw [if_neg hc2]
            have hein : e ∈ st.elevators := List.mem_of_find?_eq_some hfe
            have hrin : r ∈ st.pending := List.mem_of_find?_eq_some hfr
            have he := h.1 e hein
            have hrF := h.2 r hrin
            constructor
            · intro x hx
              rcases List.mem_map.mp hx with ⟨y, hy, rfl⟩
              by_cases hid : y.id = e.id
              · rw [if_pos hid]
                refine ⟨⟨he.1.1, he.1.2.1, ?_⟩, setDedup_nodup _⟩
                intro f hf
                rcases List.mem_append.mp (setDedup_subset hf) with hf1 | hf1
                · exact he.1.2.2 f hf1
                · rcases routePush_mem hf1 with ho | hd
                  · exact optFloorOK_some hrF.1 ho
                  · exact optFloorOK_some hrF.2 hd
              · rw [if_neg hid]
                exact h.1 y hy
            · intro x hx
              rcases List.mem_map.mp hx with ⟨y, hy, rfl⟩
              by_cases hid : y.id = r.id
              · rw [if_pos hid]
                exact hrF
              · rw [if_neg hid]
                exact h.2 y hy

theorem batchOne_inv (cfg : Config) (e : Elevator) (r : Request)
    (he : elevRange cfg e) (hr : reqFloorsOK cfg r) :
    elevRange cfg (batchOne e r).1 ∧ reqFloorsOK cfg (batchOne e r).2 := by
  unfold batchOne
  by_cases h1 : r.assignedTo.isSome
  · rw [if_pos h1]; exact ⟨he, hr⟩
  · rw [if_neg h1]
    by_cases h2 : e.capacity ≤ e.passengerCount
    · rw [if_pos h2]; exact ⟨he, hr⟩
    · rw [if_neg h2]
      cases hp : pickupOf r with
      | none => exact ⟨he, hr⟩
      | some p =>
        dsimp only
        set between :=
          if e.direction = Dir.up then
            match listMax e.targetFloors with
            | some m => decide (e.currentFloor < p ∧ p ≤ m)
            | none => false
          else
            match listMin e.targetFloors with
            | some m => decide (p < e.currentFloor ∧ m ≤ p)
            | none => false with hbdef
        by_cases hb : between = true
        · rw [if_pos hb]
          refine ⟨⟨he.1, he.2.1, ?_⟩, hr⟩
          intro f hf
          rcases List.mem_append.mp hf with hf1 | hf1
          · exact he.2.2 f hf1
          · rcases List.mem_singleton.mp hf1 with rfl
            exact reqFloorsOK_pickup hr hp
        · rw [if_neg hb]
          exact ⟨he, hr⟩

theorem batchElevator_inv (cfg : Config) (e : Elevator) (pend : List Request)
    (he : elevRange cfg e) (hp : ∀ r ∈ pend, reqFloorsOK cfg r) :
    elevInv cfg (batchElevator e pend).1 ∧
      ∀ r ∈ (batchElevator e pend).2, reqFloorsOK cfg r := by
  have hfold : elevRange cfg
      (pend.foldl (fun (st : Elevator × List Request) r =>
        ((batchOne st.1 r).1, st.2 ++ [(batchOne st.1 r).2])) (e, [])).1 ∧
      ∀ r ∈ (pend.foldl (fun (st : Elevator × List Request) r =>
        ((batchOne st.1 r).1, st.2 ++ [(batchOne st.1 r).2])) (e, [])).2,
        reqFloorsOK cfg r := by
    refine foldl_preserve
      (fun st : Elevator × List Request =>
        elevRange cfg st.1 ∧ ∀ r ∈ st.2, reqFloorsOK cfg r)
      _ pend (e, []) ⟨he, by intro r hr; cases hr⟩ ?_
    intro st a ha hst
    have hb := batchOne_inv cfg st.1 a hst.1 (hp a ha)
    refine ⟨hb.1, ?_⟩
    intro r hr
    rcases List.mem_append.mp hr with hr1 | hr1
    · exact hst.2 r hr1
    · rcases List.mem_singleton.mp hr1 with rfl
      exact hb.2
  constructor
  · unfold batchElevator
    refine ⟨⟨hfold.1.1, hfold.1.2.1, ?_⟩, setDedup_nodup _⟩
    intro f hf
    exact hfold.1.2.2 f (setDedup_subset hf)
  · unfold batchElevator
    exact hfold.2

theorem batchStep_inv (cfg : Config) (st : List Elevator × List Request) (bid : ℕ)
    (h : pairInv cfg st.1 st.2) : pairInv cfg (batchStep st bid).1 (batchStep st bid).2 := by
  unfold batchStep
  cases hfe : st.1.find? (fun e => e.id = bid) with
  | none => exact h
  | some e =>
    have hein : e ∈ st.1 := List.mem_of_find?_eq_some hfe
    have hbe := batchElevator_inv cfg e st.2 (h.1 e hein).1 h.2
    constructor
    · intro x hx
      rcases List.mem_map.mp hx with ⟨y, hy, rfl⟩
      by_cases hid : y.id = bid
      · rw [if_pos hid]
        exact hbe.1
      · rw [if_neg hid]
        exact h.1 y hy
    · exact hbe.2

theorem batchPhase_inv (cfg : Config) (bids : List ℕ)
    (st : List Elevator × List Request) (h : pairInv cfg st.1 st.2) :
    pairInv cfg (batchPhase bids st).1 (batchPhase bids st).2 := by
  unfold batchPhase
  refine foldl_preserve (fun st : List Elevator × List Request => pairInv cfg st.1 st.2)
    batchStep bids st h ?_
  intro st2 b _ hst2
  exact batchStep_inv cfg st2 b hst2

theorem greedyPhase_inv (cfg : Config) (es : List Elevator) (pend : List Request)
    (h : pairInv cfg es pend) :
    pairInv cfg (greedyPhase cfg es pend).1 (greedyPhase cfg es pend).2 := by
  unfold greedyPhase
  by_cases hc : es.filter (fun e => e.targetFloors.isEmpty) ≠ [] ∧
      pend.filter (fun r => r.assignedTo.isNone) ≠ []
  · rw [if_pos hc]
    have hfold := foldl_preserve
      (fun st : GreedySt => pairInv cfg st.elevators st.pending)
      greedyStep
      (sortPairs
        ((es.filter (fun e => e.targetFloors.isEmpty)).flatMap (fun e =>
          (pend.filter (fun r => r.assignedTo.isNone)).filterMap (fun r =>
            if r.assignedTo.isSome then none else some (mkPair cfg e r)))))
      { elevators := es, pending := pend, usedE := [], usedR := [] }
      h
      (fun st p _ hst => greedyStep_inv cfg st p hst)
    exact hfold
  · rw [if_neg hc]
    exact h

theorem updatePriorities_inv (now : ℚ) (s : SimState) (h : stateInv s) :
    stateInv (updatePriorities now s) := by
  constructor
  · exact h.1
  · intro r hr
    rcases List.mem_map.mp hr with ⟨r0, hr0, rfl⟩
    exact reqFloorsOK_refresh s.config now s.config (isMorningRushWindow now) r0
      (h.2 r0 hr0)

theorem assign_inv (s : SimState) (h : stateInv s) : stateInv (assign s) := by
  have h2 := updatePriorities_inv s.clock.simTime s h
  have hg := greedyPhase_inv s.config (updatePriorities s.clock.simTime s).elevators
    (updatePriorities s.clock.simTime s).pendingRequests ⟨h2.1, h2.2⟩
  have hb := batchPhase_inv s.config
    (((updatePriorities s.clock.simTime s).elevators.filter
        (fun e => !e.targetFloors.isEmpty)).map (fun e => e.id))
    (greedyPhase s.config (updatePriorities s.clock.simTime s).elevators
      (updatePriorities s.clock.simTime s).pendingRequests) hg
  exact ⟨hb.1, hb.2⟩

theorem pickPhase_inv (cfg : Config) (now : ℚ) (e : Elevator) (r : Request)
    (he : elevInv cfg e) (hr : reqFloorsOK cfg r) :
    elevInv cfg (pickPhase now e r).1 ∧ reqFloorsOK cfg (pickPhase now e r).2 := by
  unfold pickPhase
  by_cases h1 : r.assignedTo = some e.id ∧ r.origin = some e.currentFloor ∧
      truthyNum r.pickupTime = false
  · rw [if_pos h1]
    by_cases h2 : e.passengerCount < e.capacity
    · rw [if_pos h2]
      refine ⟨⟨⟨?_, he.1.2.1, ?_⟩, pushDest_nodup he.2 r.destination⟩, hr⟩
      · show e.passengerCount + 1 ≤ e.capacity
        omega
      intro f hf
      rcases pushDest_subset hf with hf1 | hf1
      · exact he.1.2.2 f hf1
      · exact optFloorOK_some hr.2 hf1
    · rw [if_neg h2]
      exact ⟨he, hr⟩
  · rw [if_neg h1]
    exact ⟨he, hr⟩

theorem dropPhase_inv (cfg : Config) (now : ℚ) (e : Elevator) (r : Request)
    (pend served : List Request) (rid : ℕ)
    (he : elevInv cfg e) (hr : reqFloorsOK cfg r)
    (hp : ∀ x ∈ pend, reqFloorsOK cfg x) :
    elevInv cfg (dropPhase now e r pend served rid).1 ∧
      ∀ x ∈ (dropPhase now e r pend served rid).2.1, reqFloorsOK cfg x := by
  unfold dropPhase
  by_cases h1 : r.assignedTo = some e.id ∧ r.destination = some e.currentFloor ∧
      truthyNum r.pickupTime = true ∧ truthyNum r.dropoffTime = false
  · rw [if_pos h1]
    have hcap := he.1.1
    refine ⟨⟨⟨?_, he.1.2.1, he.1.2.2⟩, he.2⟩, ?_⟩
    · show e.passengerCount - 1 ≤ e.capacity
      omega
    intro x hx
    rcases List.mem_filter.mp hx with ⟨hx1, _⟩
    rcases List.mem_map.mp hx1 with ⟨y, hy, rfl⟩
    by_cases hid : y.id = rid
    · rw [if_pos hid]
      exact hr
    · rw [if_neg hid]
      exact hp y hy
  · rw [if_neg h1]
    exact ⟨he, hp⟩

theorem sweepOne_inv (cfg : Config) (now : ℚ) (st : SweepSt) (rid : ℕ)
    (h : elevInv cfg st.1 ∧ ∀ r ∈ st.2.1, reqFloorsOK cfg r) :
    elevInv cfg (sweepOne now st rid).1 ∧
      ∀ r ∈ (sweepOne now st rid).2.1, reqFloorsOK cfg r := by
  unfold sweepOne
  cases hf : st.2.1.find? (fun r => r.id = rid) with
  | none => exact h
  | some r =>
    have hrin : r ∈ st.2.1 := List.mem_of_find?_eq_some hf
    have hpk := pickPhase_inv cfg now st.1 r h.1 (h.2 r hrin)
    have hmap : ∀ x ∈ st.2.1.map (fun x => if x.id = rid then (pickPhase now st.1 r).2 else x),
        reqFloorsOK cfg x := by
      intro x hx
      rcases List.mem_map.mp hx with ⟨y, hy, rfl⟩
      by_cases hid : y.id = rid
      · rw [if_pos hid]
        exact hpk.2
      · rw [if_neg hid]
        exact h.2 y hy
    exact dropPhase_inv cfg now (pickPhase now st.1 r).1 (pickPhase now st.1 r).2
      _ st.2.2 rid hpk.1 hpk.2 hmap

theorem sweepAll_inv (cfg : Config) (now : ℚ) (e : Elevator)
    (pend served : List Request)
    (he : elevInv cfg e) (hp : ∀ r ∈ pend, reqFloorsOK cfg r) :
    elevInv cfg (sweepAll now e pend served).1 ∧
      ∀ r ∈ (sweepAll now e pend served).2.1, reqFloorsOK cfg r := by
  unfold sweepAll
  refine foldl_preserve
    (fun st : SweepSt => elevInv cfg st.1 ∧ ∀ r ∈ st.2.1, reqFloorsOK cfg r)
    (sweepOne now) (pend.map (fun r => r.id))
    ({ e with doorState := DoorState.opened, statusSince := now }, pend, served)
    ⟨he, hp⟩ ?_
  intro st a _ hst
  exact sweepOne_inv cfg now st a hst

theorem arrivalStep_inv (cfg : Config) (now : ℚ) (e : Elevator)
    (pend served : List Request)
    (he : elevInv cfg e) (hp : ∀ r ∈ pend, reqFloorsOK cfg r) :
    elevInv cfg (arrivalStep now e pend served).1 ∧
      ∀ r ∈ (arrivalStep now e pend served).2.1, reqFloorsOK cfg r := by
  have hs := sweepAll_inv cfg now e pend served he hp
  unfold arrivalStep
  constructor
  · refine ⟨⟨hs.1.1.1, hs.1.1.2.1, ?_⟩, ?_⟩
    · intro f hf
      exact hs.1.1.2.2 f ((List.tail_sublist _).mem hf)
    · exact (List.tail_sublist _).nodup hs.1.2
  · exact hs.2

theorem closeDoor_inv (cfg : Config) (now : ℚ) (e : Elevator)
    (he : elevInv cfg e) : elevInv cfg (closeDoor now e) := by
  unfold closeDoor
  by_cases h : e.doorState = DoorState.opened
  · rw [if_pos h]
    exact he
  · rw [if_neg h]
    exact he

theorem idleStep_inv (cfg : Config) (now : ℚ) (e : Elevator)
    (he : elevInv cfg e) : elevInv cfg (idleStep now e) := by
  unfold idleStep
  by_cases h : e.direction ≠ Dir.idle
  · rw [if_pos h]
    exact he
  · rw [if_neg h]
    exact he

theorem travelStep_inv (cfg : Config) (now dt : ℚ) (e : Elevator) (target : ℤ)
    (he : elevInv cfg e) (ht : floorOK cfg target) :
    elevInv cfg (travelStep cfg now dt e target) := by
  unfold travelStep
  by_cases h : Int.floor ((e.accTime + dt) / cfg.timePerFloor) ≤ 0
  · rw [if_pos h]
    exact ⟨⟨he.1.1, he.1.2.1, he.1.2.2⟩, he.2⟩
  · rw [if_neg h]
    have hb := moveLoop_bounds (Int.floor ((e.accTime + dt) / cfg.timePerFloor)).toNat
      e.currentFloor target e.direction
    have hcf := he.1.2.1
    refine ⟨⟨he.1.1, ⟨?_, ?_⟩, he.1.2.2⟩, he.2⟩
    · show (1:ℤ) ≤ (moveLoop (Int.floor ((e.accTime + dt) / cfg.timePerFloor)).toNat
        e.currentFloor target e.direction).1
      have : (1:ℤ) ≤ min e.currentFloor target := le_min hcf.1 ht.1
      omega
    · show (moveLoop (Int.floor ((e.accTime + dt) / cfg.timePerFloor)).toNat
        e.currentFloor target e.direction).1 ≤ cfg.nFloors
      have : max e.currentFloor target ≤ cfg.nFloors := max_le hcf.2 ht.2
      omega

theorem processMove_inv (cfg : Config) (now dt : ℚ) (e : Elevator)
    (pend served : List Request)
    (he : elevInv cfg e) (hp : ∀ r ∈ pend, reqFloorsOK cfg r) :
    elevInv cfg (processMove cfg now dt e pend served).1 ∧
      ∀ r ∈ (processMove cfg now dt e pend served).2.1, reqFloorsOK cfg r := by
  unfold processMove
  by_cases hg : e.doorState = DoorState.opened ∧ now - e.statusSince < cfg.doorDwell
  · rw [if_pos hg]
    exact ⟨he, hp⟩
  · rw [if_neg hg]
    have hcd := closeDoor_inv cfg now e he
    cases htf : (closeDoor now e).targetFloors with
    | nil => exact ⟨idleStep_inv cfg now _ hcd, hp⟩
    | cons target rest =>
      dsimp only
      have htmem : target ∈ (closeDoor now e).targetFloors := by
        rw [htf]; exact List.mem_cons_self _ _
      have htok : floorOK cfg target := hcd.1.2.2 target htmem
      by_cases harr : (closeDoor now e).currentFloor = target
      · rw [if_pos harr]
        exact arrivalStep_inv cfg now _ pend served hcd hp
      · rw [if_neg harr]
        exact ⟨travelStep_inv cfg now dt _ target hcd htok, hp⟩

theorem moveAll_inv (cfg : Config) (now dt : ℚ) (es : List Elevator)
    (pend served : List Request)
    (hes : ∀ e ∈ es, elevInv cfg e) (hp : ∀ r ∈ pend, reqFloorsOK cfg r) :
    (∀ e ∈ (moveAll cfg now dt es pend served).1, elevInv cfg e) ∧
      ∀ r ∈ (moveAll cfg now dt es pend served).2.1, reqFloorsOK cfg r := by
  unfold moveAll
  refine foldl_preserve
    (fun st : List Elevator × List Request × List Request =>
      (∀ e ∈ st.1, elevInv cfg e) ∧ ∀ r ∈ st.2.1, reqFloorsOK cfg r)
    _ es ([], pend, served) ⟨(by intro e he; cases he), hp⟩ ?_
  intro st a ha hst
  have hpm := processMove_inv cfg now dt a st.2.1 st.2.2 (hes a ha) hst.2
  refine ⟨?_, hpm.2⟩
  intro x hx
  rcases List.mem_append.mp hx with hx1 | hx1
  · exact hst.1 x hx1
  · rcases List.mem_singleton.mp hx1 with rfl
    exact hpm.1

theorem afterMove_inv (realDt : ℚ) (s : SimState) (h : stateInv s) :
    stateInv (afterMove realDt s) := by
  have hm := moveAll_inv s.config (s.clock.advance realDt).simTime
    (realDt * (s.clock.advance realDt).speed) s.elevators s.pendingRequests
    s.servedRequests h.1 h.2
  exact ⟨hm.1, hm.2⟩

theorem utilPhase_inv (cfg : Config) (simDt : ℚ) (es : List Elevator)
    (hes : ∀ e ∈ es, elevInv cfg e) :
    ∀ e ∈ utilPhase simDt es, elevInv cfg e := by
  intro e he
  rcases List.mem_map.mp he with ⟨y, hy, rfl⟩
  exact hes y hy

/-- C1: from a well-formed engine state (occupancies within capacity,
current and scheduled floors inside the building, duplicate-free routes,
pending requests with in-building floors), a full tick — motion of every
elevator, then the scheduler pass, then the metrics update — leaves every
elevator with `0 ≤ passengerCount ≤ capacity`, `currentFloor ∈ [1, nFloors]`
and a duplicate-free route. -/
theorem tick_preserves_invariants (s : SimState) (realDt : ℚ) (hs : stateInv s) :
    ∀ e ∈ (tick realDt s).elevators,
      0 ≤ e.passengerCount ∧ e.passengerCount ≤ e.capacity ∧
        1 ≤ e.currentFloor ∧ e.currentFloor ≤ s.config.nFloors ∧
        e.targetFloors.Nodup := by
  have hmv := afterMove_inv realDt s hs
  have has := assign_inv (afterMove realDt s) hmv
  have hut := utilPhase_inv s.config (realDt * (s.clock.advance realDt).speed)
    (assign (afterMove realDt s)).elevators has.1
  intro e he
  have he2 := hut e he
  exact ⟨Nat.zero_le _, he2.1.1, he2.1.2.1.1, he2.1.2.1.2, he2.2⟩

/-- Witness for C1: the invariants hold on the freshly initialized default
engine and are preserved by a 200 ms tick. -/
theorem tick_preserves_invariants_witness :
    ((tick 200 sInitFix).elevators.all (fun e =>
      decide (0 ≤ e.passengerCount) && decide (e.passengerCount ≤ e.capacity) &&
      decide (1 ≤ e.currentFloor) && decide (e.currentFloor ≤ sInitFix.config.nFloors) &&
      decide e.targetFloors.Nodup)) = true := by
  have h := tick_preserves_invariants sInitFix 200 (by decide)
  rw [List.all_eq_true]
  intro e he
  rcases h e he with ⟨h1, h2, h3, h4, h5⟩
  simp only [Bool.and_eq_true, decide_eq_true_eq]
  exact ⟨⟨⟨⟨h1, h2⟩, h3⟩, h4⟩, h5⟩

/-- Witness for C4: an escalated low-score pair precedes a non-escalated
high-score pair. -/
theorem scheduler_pair_order_witness : pairCmp pairAFix pairBFix < 0 :=
  (scheduler_pair_order pairAFix pairBFix).mpr (Or.inl ⟨rfl, rfl⟩)

end ElevatorSim
